import Mathlib

/-
Verification of the portia slyd git-backed storage and snapshot ORM layer.

The development shallowly embeds the code of src/slyd/slyd (gitstorage/repo.py
and the orm package) in Lean.  Pure functions of the source become Lean
functions; database tables and in-memory registries become explicit state
(association lists) threaded through the operations; Python exceptions become
Except values.  Modules of the repository that are referenced by the sources
but were not provided (orm/snapshots.py, orm/collection.py) are modelled from
the specification, and each such definition says so in its doc comment.
External library primitives (dulwich pack encoding, SHA1, MySQL statements,
zlib COMPRESS) are modelled by concrete executable stand-ins that preserve the
structure the claims depend on; each such modelling choice is recorded in the
corresponding doc comment.

Definitions come first, theorems afterwards.
-/

/-! ## Model identity and equality (orm/base.py, Model) -/

/-- An in-memory model instance as far as equality is concerned: its model
class (by name), the value of its primary-key field, and the rest of its field
data, which Model equality must ignore.  Model.data_key in orm/base.py line
156 is the pair (model class, primary-key value). -/
structure MInst where
  cls : String
  pk : String
  fieldData : List (String × String)
deriving Repr, DecidableEq

/-- Model.data_key: the pair (model class, primary-key value). -/
def MInst.dataKey (m : MInst) : String × String := (m.cls, m.pk)

/-- The possible right-hand operands of Model equality in Python: another
model instance, a bare tuple, or a value of any other type. -/
inductive EqOperand
  | model (m : MInst)
  | tup (t : String × String)
  | otherVal (s : String)
deriving Repr, DecidableEq

/-- Model.eq (orm/base.py lines 187-192): if the operand is a Model, compare
data keys; if it is a tuple, compare the tuple against the data key; any other
operand compares unequal. -/
def modelEq (self : MInst) : EqOperand → Bool
  | .model other => other.dataKey == self.dataKey
  | .tup t => t == self.dataKey
  | .otherVal _ => false

/-- Model.ne (orm/base.py lines 194-195): the negation of Model.eq. -/
def modelNe (self : MInst) (other : EqOperand) : Bool :=
  ! modelEq self other

/-! ## MySQL object store (gitstorage/repo.py, MysqlObjectStore) -/

/-- One row of the objs table.  The table has PRIMARY KEY (oid, repo); the
data column stores COMPRESS(data), modelled as the raw byte list because zlib
compression is an external bijective transport encoding. -/
structure ObjRow where
  oid : String
  typ : Nat
  size : Nat
  data : List Nat
  repo : String
deriving Repr, DecidableEq

/-- The objs table as a list of rows in insertion order. -/
abbrev ObjsTable := List ObjRow

/-- Whether a row with the given primary key (oid, repo) is present. -/
def hasKey (t : ObjsTable) (oid repo : String) : Bool :=
  t.any fun r => r.oid == oid && r.repo == repo

/-- Number of rows with the given primary key. -/
def countKey (t : ObjsTable) (oid repo : String) : Nat :=
  t.countP fun r => r.oid == oid && r.repo == repo

/-- The ADD statement, INSERT IGNORE INTO objs (gitstorage/repo.py line 146):
if a row with the same primary key exists the statement is a silent no-op,
otherwise the row is appended.  Existing rows are never modified. -/
def insertIgnoreObj (t : ObjsTable) (r : ObjRow) : ObjsTable :=
  if hasKey t r.oid r.repo then t else t ++ [r]

/-- A git object presented to the store: numeric type and raw content. -/
structure GitObj where
  tnum : Nat
  data : List Nat
deriving Repr, DecidableEq

/-- The object id (obj.id in dulwich): a content hash, i.e. a pure function of
the serialized content.  SHA1 itself is external library code; it is modelled
by a concrete injective encoding of the content, which preserves the property
the store relies on: identical content yields an identical oid. -/
def objId (o : GitObj) : String :=
  toString o.tnum ++ ":" ++ toString o.data

/-- MysqlObjectStore._add_object (gitstorage/repo.py lines 207-213): executes
the INSERT IGNORE statement with the object id, type, size, data and repo. -/
def add_object (repo : String) (t : ObjsTable) (o : GitObj) : ObjsTable :=
  insertIgnoreObj t ⟨objId o, o.tnum, o.data.length, o.data, repo⟩

/-- Primary-key integrity of the objs table: no two rows share (oid, repo). -/
def TablePK (t : ObjsTable) : Prop :=
  t.Pairwise fun a b => ¬(a.oid = b.oid ∧ a.repo = b.repo)

instance : DecidablePred TablePK := fun t =>
  inferInstanceAs (Decidable (t.Pairwise _))

/-! ## MySQL refs container (gitstorage/repo.py, MysqlRefsContainer) -/

/-- The refs table: rows keyed by (ref, repo), PRIMARY KEY (ref, repo), with a
40-character value column. -/
abbrev RefsTable := List ((String × String) × String)

/-- dulwich.refs.SYMREF, the marker prefix of a symbolic ref value. -/
def SYMREF : String := "ref: "

/-- read_loose_ref (gitstorage/repo.py lines 330-336): the GET statement,
SELECT value FROM refs WHERE ref=name AND repo=repo FOR UPDATE; yields the
stored value or None when the row is absent. -/
def read_loose_ref (t : RefsTable) (repo name : String) : Option String :=
  t.lookup (name, repo)

/-- The method _update_ref (gitstorage/repo.py lines 341-344): the ADD statement,
REPLACE INTO refs: any row with the same key is replaced, otherwise the row is
inserted. -/
def update_ref (t : RefsTable) (repo name value : String) : RefsTable :=
  t.filter (fun p => p.1 != (name, repo)) ++ [((name, repo), value)]

/-- Whether the character list sub occurs inside the character list l. -/
def charsContain : (l sub : List Char) → Bool
  | [], sub => sub.isEmpty
  | c :: rest, sub => sub.isPrefixOf (c :: rest) || charsContain rest sub

/-- Prefix test on strings at the character level. -/
def strStartsWith (s pre : String) : Bool :=
  pre.data.isPrefixOf s.data

/-- Suffix test on strings at the character level. -/
def strEndsWith (s post : String) : Bool :=
  post.data.isSuffixOf s.data

/-- Dropping the first n characters of a string. -/
def strDrop (s : String) (n : Nat) : String :=
  String.mk (s.data.drop n)

/-- dulwich check_ref_format (external library code): validity of the part of
a ref name after the refs/ prefix.  Modelled over the printable-character
rules: the name must contain a slash, must not start with a dot, must not
contain "..", "/.", "@\x7b", a backslash, a space or the special characters
tilde, caret, colon, question mark, star and opening bracket, must not end in
a slash or a dot, and must not end in ".lock".  The control-character rule is
not modelled. -/
def check_ref_format (refname : String) : Bool :=
  let l := refname.data
  !(charsContain l ['/', '.']) && !(strStartsWith refname ".")
    && charsContain l ['/'] && !(charsContain l ['.', '.'])
    && !(l.any fun c => c ∈ [' ', '~', '^', ':', '?', '*', '[', '\\', '\x7f'])
    && !(charsContain l ['@', '\x7b'])
    && !(strEndsWith refname "/") && !(strEndsWith refname ".")
    && !(strEndsWith refname ".lock")

/-- dulwich RefsContainer._check_refname (external library code): HEAD and
refs/stash are allowed as-is; every other name must start with refs/ and its
remainder must pass check_ref_format, else RefFormatError is raised. -/
def check_refname (name : String) : Bool :=
  name == "HEAD" || name == "refs/stash"
    || (strStartsWith name "refs/" && check_ref_format (strDrop name 5))

/-- Errors raised by the ref container paths used here: KeyError from a too
deep symbolic chain in _follow, RefFormatError from _check_refname. -/
inductive RefErr
  | keyError
  | refFormatError
deriving Repr, DecidableEq

/-- dulwich RefsContainer._follow (external library code): chases symbolic
references starting from name.  Each iteration reads the current name through
read_loose_ref (get_packed_refs is empty for MysqlRefsContainer); a missing
row or a non-symbolic value stops the chase, returning the last reference
name in the chain together with the value that stopped it, and KeyError is
raised when the chain needs more than 5 chases (the source counts reads
upward with a depth variable, modelled here by the remaining budget, which
starts at 5). -/
def followBudget (t : RefsTable) (repo : String) : Nat → String →
    Except RefErr (String × Option String)
  | 0, name =>
    match read_loose_ref t repo name with
    | none => .ok (name, none)
    | some _ => .error .keyError
  | b + 1, name =>
    match read_loose_ref t repo name with
    | none => .ok (name, none)
    | some v =>
      if strStartsWith v SYMREF then followBudget t repo b (strDrop v SYMREF.length)
      else .ok (name, some v)

/-- set_if_equals (gitstorage/repo.py lines 346-354): when old_ref is given,
re-read the current value of name and fail with False (and no write) on
mismatch; otherwise resolve name through _follow, validate the resolved name,
write new_ref there through the REPLACE statement and return True. -/
def set_if_equals (t : RefsTable) (repo name : String) (old_ref : Option String)
    (new_ref : String) : Except RefErr (Bool × RefsTable) :=
  let proceed : Except RefErr (Bool × RefsTable) := do
    let (realname, _) ← followBudget t repo 5 name
    if check_refname realname then
      .ok (true, update_ref t repo realname new_ref)
    else
      .error .refFormatError
  match old_ref with
  | some o =>
    if some o ≠ read_loose_ref t repo name then .ok (false, t) else proceed
  | none => proceed

/-! ## Snapshot data store and identity map (orm/snapshots.py, orm/base.py) -/

/-- Modelled from the spec: the class ModelSnapshots in slyd/orm/snapshots.py
is not among the provided sources.  Spec section 4.4 describes it as a
per-entity generational key/value store whose named generations are working,
staged and committed (canonical default order), each a partial mapping from
field name to value; field values are modelled as strings. -/
structure SnapStore where
  working : List (String × String)
  staged : List (String × String)
  committed : List (String × String)
deriving Repr, DecidableEq

/-- ModelSnapshots.default_snapshots: the canonical generation order. -/
def default_snapshots : List String := ["working", "staged", "committed"]

/-- The mapping held by one named generation. -/
def SnapStore.gen (s : SnapStore) (g : String) : List (String × String) :=
  if g = "working" then s.working
  else if g = "staged" then s.staged
  else if g = "committed" then s.committed
  else []

/-- Update of one generation mapping at one field. -/
def genSet (m : List (String × String)) (k v : String) : List (String × String) :=
  (k, v) :: m.filter (fun p => p.1 != k)

/-- Modelled from the spec (section 4.4): get scans the generations in the
given order and returns the first present value, absent in all otherwise. -/
def SnapStore.get (s : SnapStore) (key : String) : List String → Option String
  | [] => none
  | g :: rest =>
    match (s.gen g).lookup key with
    | some v => some v
    | none => s.get key rest

/-- Modelled from the spec (section 4.4): set writes into exactly one named
generation; an unknown generation name leaves the store unchanged. -/
def SnapStore.set (s : SnapStore) (key value : String) (snapshot : String) : SnapStore :=
  if snapshot = "working" then { s with working := genSet s.working key value }
  else if snapshot = "staged" then { s with staged := genSet s.staged key value }
  else if snapshot = "committed" then { s with committed := genSet s.committed key value }
  else s

/-- The store of a freshly constructed entity. -/
def SnapStore.empty : SnapStore := ⟨[], [], []⟩

/-- A reference to the snapshot-store cell an instance hands its reads and
writes to.  Model.data_store keys the class-level shared_data_store registry
by the storage collaborator and then the data key when a storage is attached,
and by the instance itself otherwise. -/
inductive CellRef
  | byStorage (storage : Nat) (dk : String × String)
  | byInstance (inst : Nat)
deriving Repr, DecidableEq

/-- Model.data_store (orm/base.py lines 238-244): with a storage collaborator
the cell is shared_data_store[storage][data_key], so instances with equal
storage and data key alias one cell; without storage the cell is private to
the instance (keyed by the instance itself). -/
def data_store (storage : Option Nat) (instId : Nat) (dk : String × String) : CellRef :=
  match storage with
  | some st => .byStorage st dk
  | none => .byInstance instId

/-- The shared_data_store registry flattened to cells (WeakKeyDictionary of
dictionaries in the source). -/
abbrev Registry := List (CellRef × SnapStore)

/-- setdefault-style read of a cell: a cell never touched before is the store
of a freshly constructed entity. -/
def Registry.fetch (reg : Registry) (c : CellRef) : SnapStore :=
  (reg.lookup c).getD SnapStore.empty

/-- Writing a cell back into the registry. -/
def Registry.putCell (reg : Registry) (c : CellRef) (s : SnapStore) : Registry :=
  (c, s) :: reg.filter (fun p => p.1 != c)

/-- Model.set_data (orm/base.py lines 265-266): writes the value into the
first generation of the instance snapshot order (working by default). -/
def set_data (reg : Registry) (c : CellRef) (snapshots : List String) (k v : String) :
    Registry :=
  reg.putCell c ((reg.fetch c).set k v (snapshots.headD "working"))

/-- Model.get_data (orm/base.py lines 253-263), restricted to its data-store
read: return the first value for the key along the instance snapshot order.
The lazy-resolution step performed before the read (resolve_attributes) never
removes or shadows a value already present in an earlier generation of the
order, and is modelled separately for C8. -/
def get_data (reg : Registry) (c : CellRef) (snapshots : List String) (k : String) :
    Option String :=
  (reg.fetch c).get k snapshots

/-! ## Reconnecting unit-of-work runner (gitstorage/repo.py, ReconnectionPool) -/

/-- The transient database error classes of the ERRORS tuple (gitstorage repo
lines 24-30): twisted ConnectionLost, MySQLdb OperationalError carrying its
numeric code, and IOError.  Each carries a numeric payload so that re-raising
with preserved identity is observable in the theorems. -/
inductive DbErr
  | connectionLost (msg : Nat)
  | operationalError (code : Nat) (msg : Nat)
  | ioError (msg : Nat)
deriving Repr, DecidableEq

/-- A Python exception escaping the wrapped operation: either one matching
the ERRORS tuple, or any other exception. -/
inductive PyExc
  | db (e : DbErr)
  | otherExc (tag : Nat)
deriving Repr, DecidableEq

/-- RETRIES (gitstorage/repo.py line 30). -/
def RETRIES : Nat := 3

/-- The re-raise guard of the ERRORS handler (gitstorage/repo.py lines
70-72): give up when the retry counter has reached the bound, or when the
error is an OperationalError whose code is not 2006 (server has gone away),
2013 (lost connection during query) or 1213 (deadlock). -/
def giveUp (retries : Nat) (e : DbErr) : Bool :=
  decide (retries ≥ RETRIES) ||
    (match e with
     | .operationalError code _ => !([2006, 2013, 1213].contains code)
     | _ => false)

/-- Events performed on the leased connection. -/
inductive ConnEvent
  | invoke (attempt : Nat)
  | commit
  | rollback
  | reconnect
deriving Repr, DecidableEq

/-- The method _runWithConnection (gitstorage/repo.py lines 43-88).  The wrapped
operation func is modelled as a function from the attempt number (the
_retries counter threaded through kw) to its outcome; the leased connection
is modelled by the trace of events performed on it.  On success the result is
committed and returned.  On an ERRORS-class failure the guard decides between
re-raising the caught error unchanged and the retry path, which rolls back
(exceptions from rollback are swallowed by the source), reconnects, and
re-invokes the entire operation with the counter incremented.  Any other
exception rolls back and re-raises immediately with identity preserved.  The
manager-injection prologue (lines 46-58) only wires the connection into
request-manager objects and is not modelled; conn.commit() is modelled as
always succeeding. -/
def runWithConnection (func : Nat → Except PyExc α) (retries : Nat)
    (log : List ConnEvent) : Except PyExc α × List ConnEvent :=
  let log1 := log ++ [ConnEvent.invoke retries]
  match func retries with
  | .ok r => (.ok r, log1 ++ [ConnEvent.commit])
  | .error (.db d) =>
    if h : giveUp retries d then (.error (.db d), log1)
    else
      runWithConnection func (retries + 1)
        (log1 ++ [ConnEvent.rollback, ConnEvent.reconnect])
  | .error (.otherExc tag) => (.error (.otherExc tag), log1 ++ [ConnEvent.rollback])
termination_by RETRIES - retries
decreasing_by
  simp only [giveUp, Bool.or_eq_true, decide_eq_true_eq] at h
  push_neg at h
  omega

/-- The connection events of a successful run whose first k attempts failed
with a retryable error: k failed attempts each followed by rollback and
reconnect, then the successful attempt followed by commit. -/
def retrySuccessLog (base : Nat) : Nat → List ConnEvent
  | 0 => [ConnEvent.invoke base, ConnEvent.commit]
  | k + 1 => [ConnEvent.invoke base, ConnEvent.rollback, ConnEvent.reconnect]
      ++ retrySuccessLog (base + 1) k

/-! ## Lazy document loading (orm/base.py, Model.load and resolve_attributes) -/

/-- I/O performed against the storage collaborator by Model.load. -/
inductive StorageEvent
  | existsCheck (path : String)
  | openRead (path : String)
deriving Repr, DecidableEq

/-- The class-level Model.loaded registry (a per-storage set of already
loaded paths) together with the trace of storage I/O performed so far. -/
structure LoadState where
  loadedPaths : List (Nat × String)
  trace : List StorageEvent
deriving Repr, DecidableEq

/-- Outcome of Model.load as far as the claims distinguish it. -/
inductive LoadResult
  | guardReturn       -- returned by one of the early guards, before the loaded-set bookkeeping
  | dedupHit          -- the (storage, path) pair was already in the loaded set: no I/O
  | emptyCollection   -- file absent and the model is owner-stored: fresh empty collection
  | missingFile       -- file absent, plain model: the passed instance is returned unchanged
  | loadedDoc         -- file opened and parsed through the file schema
deriving Repr, DecidableEq

/-- Model.load (orm/base.py lines 378-409), with document parsing abstracted
away.  storage is the storage collaborator (None when absent); path is the
result of storage_path over the committed-then-working snapshots (None when
the model has no path); ownerModel is the truthiness of cls.opts.owner;
hasInst whether an instance was passed and instPkPresent whether that
instance has its primary-key field in some generation; fileExists gives the
storage.exists answer per path.  The early guards return without touching the
loaded set; a path already in the per-storage loaded set returns before any
storage I/O; otherwise the path is recorded first and then the file is
checked and read. -/
def modelLoad (storage : Option Nat) (path : Option String) (ownerModel : Bool)
    (hasInst : Bool) (instPkPresent : Bool) (fileExists : String → Bool)
    (s : LoadState) : LoadState × LoadResult :=
  match storage with
  | none => (s, .guardReturn)
  | some st =>
    match path with
    | none => (s, .guardReturn)
    | some p =>
      if hasInst && ownerModel && !instPkPresent then (s, .guardReturn)
      else if (st, p) ∈ s.loadedPaths then (s, .dedupHit)
      else
        let s1 : LoadState := { s with loadedPaths := s.loadedPaths ++ [(st, p)] }
        if !(fileExists p) then
          ({ s1 with trace := s1.trace ++ [.existsCheck p] },
            if ownerModel then .emptyCollection else .missingFile)
        else
          ({ s1 with trace := s1.trace ++ [.existsCheck p, .openRead p] }, .loadedDoc)

/-- Model.resolve_attributes (orm/base.py lines 425-445) reduced to its
decision: with a storage attached, scan the requested attributes (all file
fields when none are requested) and trigger one Model.load as soon as an
attribute is a file field, is not currently being initialized, and is absent
from every generation of the instance snapshot order. -/
def resolve_attributes (hasStorage : Bool) (fileFields initializing : List String)
    (present : String → Bool) (attributes : List String) : Bool :=
  if !hasStorage then false
  else
    (if attributes.isEmpty then fileFields else attributes).any
      fun a => fileFields.contains a && !(initializing.contains a) && !(present a)

/-- The arguments of one Model.load call that vary per call. -/
structure LoadCall where
  path : Option String
  ownerModel : Bool
  hasInst : Bool
  instPkPresent : Bool
deriving Repr, DecidableEq

/-- A sequence of Model.load calls against one storage collaborator, each
threading the loaded-set/trace state. -/
def runLoads (storage : Option Nat) (fileExists : String → Bool)
    (calls : List LoadCall) (s : LoadState) : LoadState :=
  calls.foldl
    (fun st c => (modelLoad storage c.path c.ownerModel c.hasInst c.instPkPresent
      fileExists st).1) s

/-- Number of full-document loads of path p visible in a trace: each load of
p performs exactly one storage.exists check. -/
def ioCountAt (p : String) (tr : List StorageEvent) : Nat :=
  tr.countP fun ev => ev == StorageEvent.existsCheck p

/-! ## Document codec for Schema and Field (orm/schemas.py, orm/models.py) -/

/-- JSON document values as far as the Schema and Field documents use them. -/
inductive Json
  | str (s : String)
  | boolean (b : Bool)
  | obj (kvs : List (String × Json))

mutual

/-- Structural equality of JSON values: the comparison performed by the
envelope-key agreement validation in unwrap_envelopes. -/
def jsonBeq : Json → Json → Bool
  | .str a, .str b => a == b
  | .boolean a, .boolean b => a == b
  | .obj a, .obj b => jsonMembersBeq a b
  | _, _ => false

/-- Structural equality of JSON object member lists. -/
def jsonMembersBeq : List (String × Json) → List (String × Json) → Bool
  | [], [] => true
  | (k1, v1) :: r1, (k2, v2) :: r2 => k1 == k2 && jsonBeq v1 v2 && jsonMembersBeq r1 r2
  | _, _ => false

end

/-- Character-wise lexicographic order on strings, the order of Python
sorted() over ASCII keys. -/
def charListLe : List Char → List Char → Bool
  | [], _ => true
  | _ :: _, [] => false
  | c :: cs, d :: ds =>
    if c.toNat < d.toNat then true
    else if d.toNat < c.toNat then false
    else charListLe cs ds

/-- Lexicographic string order used by order_keys. -/
def strLe (a b : String) : Bool :=
  charListLe a.data b.data

/-- Insertion into a key-sorted member list. -/
def insertSorted (kv : String × Json) : List (String × Json) → List (String × Json)
  | [] => [kv]
  | kv2 :: rest =>
    if strLe kv.1 kv2.1 then kv :: kv2 :: rest else kv2 :: insertSorted kv rest

/-- order_keys (orm/schemas.py lines 78-85): re-create the dumped object with
its keys sorted, so that object keys are canonical while envelopes keep their
insertion order. -/
def order_keys (kvs : List (String × Json)) : List (String × Json) :=
  kvs.foldr insertSorted []

/-- One step of wrap_envelopes (orm/schemas.py lines 87-100): read the
primary-key value out of a dumped body (obj[pk_field], a KeyError if absent,
modelled as none), delete the pk member from the body when
envelope_remove_key is set, and key the body by the pk value. -/
def wrapOne (pkField : String) (removeKey : Bool) (body : List (String × Json)) :
    Option (String × Json) :=
  match body.lookup pkField with
  | some (Json.str pk) =>
    some (pk, Json.obj (if removeKey then body.filter (fun kv => kv.1 != pkField) else body))
  | _ => none

/-- wrap_envelopes (orm/schemas.py lines 87-100): wrap the dumped bodies into
a mapping keyed by the primary-key value of each body. -/
def wrapEnvelopes (pkField : String) (removeKey : Bool)
    (bodies : List (List (String × Json))) : Option (List (String × Json)) :=
  bodies.mapM (wrapOne pkField removeKey)

/-- Python dict assignment obj[k] = v: overwrite in place when the key
exists, append otherwise. -/
def setKey (body : List (String × Json)) (k : String) (v : Json) :
    List (String × Json) :=
  if (body.lookup k).isSome then
    body.map fun kv => if kv.1 == k then (k, v) else kv
  else body ++ [(k, v)]

/-- The in-memory Field entity (orm/models.py lines 49-66) over its file
fields: id (primary key), name, type, required, vary. -/
structure FieldM where
  id : String
  name : String
  type : String
  required : Bool
  vary : Bool

/-- The in-memory Schema entity (orm/models.py lines 27-47) over its file
fields: id (primary key), name, and the has-many fields collection (the
project belongs-to is ignore_in_file and never serialized). -/
structure SchemaM where
  id : String
  name : String
  fields : List FieldM

/-- The marshmallow serialization of one Field over its declared file fields,
before key ordering. -/
def fieldSerialize (f : FieldM) : List (String × Json) :=
  [("id", .str f.id), ("name", .str f.name), ("type", .str f.type),
   ("required", .boolean f.required), ("vary", .boolean f.vary)]

/-- One dumped Field body: serialization followed by order_keys. -/
def fieldDump (f : FieldM) : List (String × Json) :=
  order_keys (fieldSerialize f)

/-- The dumped fields collection: every Field body through the Field file
schema, then wrap_envelopes with envelope true and envelope_remove_key false
(Field Meta, orm/models.py lines 60-63). -/
def fieldDumpMany (fs : List FieldM) : Option Json :=
  (wrapEnvelopes "id" false (fs.map fieldDump)).map Json.obj

/-- The dumped Schema document: serialize the file fields, sort the keys
(order_keys), then wrap_envelopes with envelope true and envelope_remove_key
true (Schema Meta, orm/models.py lines 35-39), the single body wrapped as a
one-element envelope. -/
def schemaDump (s : SchemaM) : Option Json := do
  let fieldsJson ← fieldDumpMany s.fields
  let body := order_keys
    [("id", .str s.id), ("name", .str s.name), ("fields", fieldsJson)]
  let env ← wrapEnvelopes "id" true [body]
  return Json.obj env

/-- One step of unwrap_envelopes (orm/schemas.py lines 45-63): for an
envelope item (pk, body), when envelope_remove_key is not set and the body
already carries the primary-key field, its value must agree with the envelope
key (ValidationError otherwise); then the envelope key is injected into the
body under the primary-key field name. -/
def unwrapOne (pkField : String) (removeKey : Bool) (pk : String) (j : Json) :
    Except String (List (String × Json)) :=
  match j with
  | Json.obj body => do
    if !removeKey then
      match body.lookup pkField with
      | some v =>
        if !(jsonBeq v (.str pk)) then
          throw "ValidationError: envelope id does not match primary key field"
        else pure ()
      | none => pure ()
    return setKey body pkField (.str pk)
  | _ => throw "ValidationError: envelope value is not an object"

/-- unwrap_envelopes (orm/schemas.py lines 45-63) over a whole envelope. -/
def unwrapEnvelopes (pkField : String) (removeKey : Bool)
    (env : List (String × Json)) : Except String (List (List (String × Json))) :=
  env.mapM fun kv => unwrapOne pkField removeKey kv.1 kv.2

/-- Reading a required string member of a loaded body. -/
def parseStr (body : List (String × Json)) (k : String) : Except String String :=
  match body.lookup k with
  | some (.str s) => .ok s
  | _ => .error "ValidationError: missing or non-string field"

/-- Reading a string member with a declared field default. -/
def parseStrD (body : List (String × Json)) (k dflt : String) : Except String String :=
  match body.lookup k with
  | none => .ok dflt
  | some (.str s) => .ok s
  | some _ => .error "ValidationError: non-string field"

/-- Reading a boolean member with a declared field default. -/
def parseBoolD (body : List (String × Json)) (k : String) (dflt : Bool) :
    Except String Bool :=
  match body.lookup k with
  | none => .ok dflt
  | some (.boolean b) => .ok b
  | some _ => .error "ValidationError: non-boolean field"

/-- Loading one Field body (after envelope unwrapping): id and name are
required strings, type defaults to text, required and vary default to False
(orm/models.py lines 49-58; the OneOf validation of type against the external
slybot field-type registry is not modelled). -/
def fieldLoadOne (body : List (String × Json)) : Except String FieldM := do
  let id ← parseStr body "id"
  let name ← parseStr body "name"
  let tp ← parseStrD body "type" "text"
  let req ← parseBoolD body "required" false
  let vy ← parseBoolD body "vary" false
  return ⟨id, name, tp, req, vy⟩

/-- Loading the fields collection: unwrap the envelope with
envelope_remove_key false (so envelope keys are validated against any id
field in the bodies), then load each Field. -/
def fieldLoadMany (env : List (String × Json)) : Except String (List FieldM) := do
  let bodies ← unwrapEnvelopes "id" false env
  bodies.mapM fieldLoadOne

/-- Loading one Schema document (single-object load, many false): unwrap the
one-element envelope with envelope_remove_key true, apply the name_from_id
pre-load hook (orm/models.py lines 41-46: a missing name defaults to the id),
then load the file fields and construct the entity (create_object). -/
def schemaLoadOne (j : Json) : Except String SchemaM := do
  match j with
  | Json.obj env =>
    let bodies ← unwrapEnvelopes "id" true env
    match bodies with
    | [body] =>
      let body := if (body.lookup "name").isSome then body
        else setKey body "name" ((body.lookup "id").getD (.str ""))
      let id ← parseStr body "id"
      let name ← parseStr body "name"
      let fields ← match body.lookup "fields" with
        | none => .ok []
        | some (Json.obj envF) => fieldLoadMany envF
        | some _ => .error "ValidationError: fields is not an object"
      return ⟨id, name, fields⟩
    | _ => .error "ValidationError: not a single-object envelope"
  | _ => .error "ValidationError: document is not an object"

/-! ## Commit phase of save (orm/base.py, _commit_changes) -/

/-- A path-template part: a literal or a reference to a field of self (the
path templates of the source are Python format strings over self). -/
inductive PathPart
  | lit (s : String)
  | fieldRef (f : String)
deriving Repr, DecidableEq

/-- Rendering a path template against a field accessor; a missing field
reference raises (AttributeError turned PathResolutionError), modelled as
none. -/
def renderPath : List PathPart → (String → Option String) → Option String
  | [], _ => some ""
  | .lit s :: rest, lk => (renderPath rest lk).map (fun r => s ++ r)
  | .fieldRef f :: rest, lk =>
    match lk f with
    | none => none
    | some v => (renderPath rest lk).map (fun r => v ++ r)

/-- storage_path (orm/base.py lines 411-423): render the template over the
data accessor of the requested snapshot order; an empty rendered path is
returned as None. -/
def storage_path (parts : List PathPart) (store : SnapStore) (snaps : List String) :
    Option String :=
  match renderPath parts (fun f => store.get f snaps) with
  | none => none
  | some p => if p = "" then none else some p

/-- One model reaching the commit loop: its snapshot store, its declared file
fields and its path template.  The serialized document content written by
Storage.save (the group dump routed through the top-most owner) does not
affect which storage calls are made and is not modelled. -/
structure CommitModel where
  store : SnapStore
  fileFields : List String
  pathTemplate : List PathPart
deriving Repr

/-- The new path of a model: storage_path over staged-then-committed
(orm/base.py line 329). -/
def CommitModel.newPath (m : CommitModel) : Option String :=
  storage_path m.pathTemplate m.store ["staged", "committed"]

/-- The old path of a model: storage_path over committed-then-staged
(orm/base.py lines 330-331). -/
def CommitModel.oldPath (m : CommitModel) : Option String :=
  storage_path m.pathTemplate m.store ["committed", "staged"]

/-- The dirty test of the commit loop (orm/base.py line 328): file fields
present in the staged generation. -/
def CommitModel.isDirty (m : CommitModel) : Bool :=
  m.fileFields.any fun f => (m.store.staged.lookup f).isSome

/-- A call made against the storage collaborator by the commit loop. -/
inductive StorageCall
  | save (p : Option String)
  | delete (p : Option String)
deriving Repr, DecidableEq

/-- The storage-call loop of _commit_changes (orm/base.py lines 321-353) over
the chain of the target model and its staged related models, threading the
saved_paths and deleted_paths sets: a model with staged file fields or a
moved path saves its new path unless that path was already saved; and when
the path moved and the NEW path is not in deleted_paths, deletes the old path
and records the OLD path in deleted_paths (this asymmetry is the source
text).  The second loop, which folds staged into committed, performs no
storage calls and is omitted. -/
def commitLoop : List CommitModel → List (Option String) → List (Option String) →
    List StorageCall
  | [], _, _ => []
  | m :: rest, saved, deleted =>
    let path := m.newPath
    let old_path := m.oldPath
    if m.isDirty = true ∨ old_path ≠ path then
      let step1 : List StorageCall × List (Option String) :=
        if path ∈ saved then ([], saved)
        else ([StorageCall.save path], path :: saved)
      let step2 : List StorageCall × List (Option String) :=
        if old_path ≠ path ∧ path ∉ deleted then
          ([StorageCall.delete old_path], old_path :: deleted)
        else ([], deleted)
      step1.1 ++ step2.1 ++ commitLoop rest step1.2 step2.2
    else commitLoop rest saved deleted

/-- The storage calls of _commit_changes, started with empty saved and deleted
sets. -/
def commit_changes (ms : List CommitModel) : List StorageCall :=
  commitLoop ms [] []

/-! ## Belongs-to relationship descriptor (orm/relationships.py) -/

/-- An entity identity: model class name and primary-key value.  Equality of
entities is Model equality (the data key), which is what the value
comparison of the descriptor and the collection membership tests use. -/
structure Entity where
  cls : String
  pk : String
deriving Repr, DecidableEq

/-- Modelled from the spec: orm/collection.py is absent from the provided
sources.  ModelCollection.add appends an entity not already in the collection
(set-like add keyed by entity identity, preserving order). -/
def collAdd (xs : List Entity) (e : Entity) : List Entity :=
  if e ∈ xs then xs else xs ++ [e]

/-- Modelled from the spec: orm/collection.py is absent from the provided
sources.  ModelCollection.discard removes an entity from the collection. -/
def collDiscard (xs : List Entity) (e : Entity) : List Entity :=
  xs.filter fun x => x != e

/-- State of one belongs-to/has-many relationship pair: the scalar
belongs-to value of each child entity (its data-store entry for the field,
read with a None default like get_data(attr, None)), and the hydrated
inverse collection of each parent entity. -/
structure HMState where
  refOf : List (Entity × Option Entity)
  collOf : List (Entity × List Entity)
deriving Repr, DecidableEq

/-- The current belongs-to value of a child (None when never set). -/
def HMState.getRef (s : HMState) (e : Entity) : Option Entity :=
  (s.refOf.lookup e).getD none

/-- set_data on the belongs-to field of a child. -/
def HMState.setRef (s : HMState) (e : Entity) (v : Option Entity) : HMState :=
  { s with refOf := (e, v) :: s.refOf }

/-- The hydrated inverse collection of a parent (empty when never touched:
with no storage the has-many descriptor hydrates an empty collection). -/
def HMState.getColl (s : HMState) (e : Entity) : List Entity :=
  (s.collOf.lookup e).getD []

/-- In-place mutation of the inverse collection of a parent. -/
def HMState.updColl (s : HMState) (e : Entity) (f : List Entity → List Entity) :
    HMState :=
  { s with collOf := (e, f (s.getColl e)) :: s.collOf }

/-- BelongsToDescriptor set (orm/relationships.py lines 52-74) for a
relationship whose declared inverse side is a has-many collection: validate
the type of the assigned value first (validate_type raises ValidationError when
the value is neither None nor an instance of the related model, orm/utils.py
lines 16-20); when the value differs from the current one under Model
equality, write it into the instance data, discard the instance from the
inverse collection of the old value, and add the instance to the inverse
collection of the new value (with_snapshots returns a handle onto the same identity
and is the identity here). -/
def belongsToSet (relatedCls : String) (s : HMState) (inst : Entity)
    (value : Option Entity) : Except String HMState := do
  match value with
  | some v =>
    if v.cls ≠ relatedCls then
      throw "ValidationError: not an instance of the related model"
    else pure ()
  | none => pure ()
  let current := s.getRef inst
  if value = current then
    return s
  else
    let s1 := s.setRef inst value
    let s2 := match current with
      | some old => s1.updColl old fun xs => collDiscard xs inst
      | none => s1
    let s3 := match value with
      | some b => s2.updColl b fun xs => collAdd xs inst
      | none => s2
    return s3

/-- State of a one-to-one belongs-to pair (a scalar belongs-to on each side):
the alpha field values of the first-side entities and the beta field values
of the second-side entities. -/
structure OOState where
  alpha : List (Entity × Option Entity)
  beta : List (Entity × Option Entity)
deriving Repr, DecidableEq

/-- The alpha field of an entity (None when never set). -/
def OOState.getA (s : OOState) (e : Entity) : Option Entity :=
  (s.alpha.lookup e).getD none

/-- set_data on the alpha field. -/
def OOState.setA (s : OOState) (e : Entity) (v : Option Entity) : OOState :=
  { s with alpha := (e, v) :: s.alpha }

/-- The beta field of an entity (None when never set). -/
def OOState.getB (s : OOState) (e : Entity) : Option Entity :=
  (s.beta.lookup e).getD none

/-- set_data on the beta field. -/
def OOState.setB (s : OOState) (e : Entity) (v : Option Entity) : OOState :=
  { s with beta := (e, v) :: s.beta }

/-- BelongsToDescriptor set (orm/relationships.py lines 52-74) for a
one-to-one pair, where both inverse sides are scalar belongs-to fields: side
true sets the alpha field of a first-side entity (its related model is the
second class), side false sets the beta field of a second-side entity.  The
detach and attach steps are setattr calls on the related entity and therefore
recursive invocations of the inverse descriptor; the Python call stack is
modelled by explicit fuel, with fuel exhaustion returning none (which
sufficient fuel never reaches). -/
def ooSet (clsA clsB : String) : Nat → Bool → OOState → Entity → Option Entity →
    Except String (Option OOState)
  | 0, _, _, _, _ => .ok none
  | fuel + 1, side, s, inst, value => do
    match value with
    | some v =>
      if v.cls ≠ (if side then clsB else clsA) then
        throw "ValidationError: not an instance of the related model"
      else pure ()
    | none => pure ()
    let current := if side then s.getA inst else s.getB inst
    if value = current then
      return some s
    else
      let s1 := if side then s.setA inst value else s.setB inst value
      let s2opt ← match current with
        | some old => ooSet clsA clsB fuel (!side) s1 old none
        | none => pure (some s1)
      match s2opt with
      | none => return none
      | some s2 =>
        match value with
        | some b => ooSet clsA clsB fuel (!side) s2 b (some inst)
        | none => return some s2

/-! ## Thin pack completion (gitstorage/repo.py, MysqlObjectStore) -/

/-- One entry of a pack stream: either a full (non-delta) object of a given
numeric type, or a ref-delta whose base object is referenced by oid and may
live outside the stream (a thin pack). -/
inductive PackEntry
  | full (tnum : Nat) (data : List Nat)
  | refDelta (baseOid : String) (delta : List Nat)
deriving Repr, DecidableEq

/-- One token of the pack byte stream.  The byte-level entry encoding
(varint sizes, zlib-compressed payloads) is dulwich library code external to
this repository; the stream is modelled at token granularity: the 12-byte
header as one token carrying version and object count, each encoded entry as
one token, and the trailing 20-byte checksum as one token.  Patching the
header in place, hashing every byte before the trailer, and appending entries
over the old trailer keep their exact structure at this granularity. -/
inductive Tok
  | hdr (version count : Nat)
  | ent (e : PackEntry)
  | trailerTok (digest : Nat)
deriving Repr, DecidableEq

/-- A numeric rendering of a string, for checksum input only. -/
def strVal (s : String) : Nat :=
  s.data.foldl (fun h c => h * 1114112 + c.toNat + 1) 0

/-- A numeric rendering of an entry, for checksum input only. -/
def entVal : PackEntry → Nat
  | .full tnum data => (data.foldl (fun h b => h * 4294967296 + b + 1) (tnum + 1)) * 2
  | .refDelta oid delta =>
    (delta.foldl (fun h b => h * 4294967296 + b + 1) (strVal oid)) * 2 + 1

/-- A numeric rendering of a token, for checksum input only. -/
def tokVal : Tok → Nat
  | .hdr v c => v * 31 + c * 17
  | .ent e => entVal e
  | .trailerTok d => d

/-- One update step of the rolling content checksum (SHA1 is external
library code; it is modelled as an iterated mixing fold, which preserves the
property the completion code relies on: hashing more bytes continues the same
fold). -/
def shaStep (h : Nat) (t : Tok) : Nat :=
  (h * 1000003 + tokVal t + 1) % (2 ^ 160)

/-- compute_file_sha (dulwich, external): the rolling checksum of a token
stream. -/
def compute_file_sha (toks : List Tok) : Nat :=
  toks.foldl shaStep 0

/-- write_pack_header (dulwich, external): signature, version 2 and object
count, as one header token. -/
def write_pack_header (count : Nat) : Tok :=
  .hdr 2 count

/-- A verified thin pack stream as PackStreamCopier leaves it in the buffer:
the header announcing the count of entries present in the stream, the
entries, and the trailing checksum of the stream itself. -/
structure ThinStream where
  entries : List PackEntry
  origDigest : Nat

/-- Effectful map over Option (the mapM of the Option monad, spelled out
for direct reduction): the first failing element fails the whole map. -/
def optMapM {α β : Type} (f : α → Option β) : List α → Option (List β)
  | [] => some []
  | x :: xs => do
    let y ← f x
    let ys ← optMapM f xs
    some (y :: ys)

/-- The method _complete_thin_pack (gitstorage/repo.py lines 256-277): entries and
ext_refs come from the PackIndexer (external library code) that scanned the
copied stream.  Seek to 0 and patch the header in place with the corrected
count (stream entries plus external references); recompute the rolling
checksum over the buffer except its trailing 20 bytes (the patched header and
the entries); for each external reference fetch the raw object from the store
(get_raw returning no row aborts the completion: in Python, unpacking None
raises before anything is persisted) and append it as a full non-delta entry
over the old trailer, continuing the checksum; finally append the digest. -/
def _complete_thin_pack (getRaw : String → Option (Nat × List Nat))
    (entries : List PackEntry) (ext_refs : List String) :
    Option (List Tok) := do
  let hdr2 := write_pack_header (entries.length + ext_refs.length)
  let body := entries.map Tok.ent
  let sha0 := compute_file_sha (hdr2 :: body)
  let fetched ← optMapM (fun oid =>
    (getRaw oid).map fun td => Tok.ent (.full td.1 td.2)) ext_refs
  let digest := fetched.foldl shaStep sha0
  some (hdr2 :: body ++ fetched ++ [Tok.trailerTok digest])

/-- The oids of the full objects present in a buffer (the pack index the
inflater resolves ref deltas against). -/
def fullObjs (toks : List Tok) : List GitObj :=
  toks.filterMap fun t =>
    match t with
    | .ent (.full tnum data) => some ⟨tnum, data⟩
    | _ => none

/-- The oids of the full entries of a stream (bases available inside the
stream itself). -/
def entryOids (entries : List PackEntry) : List String :=
  entries.filterMap fun e =>
    match e with
    | .full tnum data => some (objId ⟨tnum, data⟩)
    | .refDelta _ _ => none

/-- Base lookup by oid among decoded full objects. -/
def lookupBase (objs : List GitObj) (oid : String) : Option GitObj :=
  objs.find? fun o => objId o == oid

/-- Delta application (dulwich apply_delta, external library code), modelled
as a concrete total function of base and delta; the claims depend only on a
delta entry resolving to one object. -/
def applyDelta (base delta : List Nat) : List Nat :=
  base ++ delta

/-- Decoding one entry against the full objects of the buffer: a full entry
is an object; a ref delta resolves its base by oid and applies the delta (the
resolved object carries the base type); an unresolvable base fails. -/
def decodeEntry (objs : List GitObj) : PackEntry → Option GitObj
  | .full tnum data => some ⟨tnum, data⟩
  | .refDelta oid delta =>
    (lookupBase objs oid).map fun base => ⟨base.tnum, applyDelta base.data delta⟩

/-- Splitting the tokens after the header into the entry list and the
trailing checksum. -/
def splitEntries : List Tok → Option (List PackEntry × Nat)
  | [Tok.trailerTok d] => some ([], d)
  | Tok.ent e :: rest => (splitEntries rest).map fun pr => (e :: pr.1, pr.2)
  | _ => none

/-- Decoding a self-contained buffer (PackData and PackInflater, external
library code): read the announced number of entries and resolve each into an
object. -/
def decodePack (toks : List Tok) : Option (List GitObj) :=
  match toks with
  | Tok.hdr _ count :: rest => do
    let (entries, _) ← splitEntries rest
    if entries.length ≠ count then none
    else
      let objs := fullObjs toks
      optMapM (decodeEntry objs) entries
  | _ => none

/-- add_thin_pack as intended (gitstorage/repo.py lines 279-302).  The
shipped code never reaches this algorithm: add_thin_pack calls
self.add_pack() although add_pack (line 235) requires a cursor argument, and
the commit closure calls self._add_object(obj, cursor) although _add_object
(line 207) accepts only the object, so every call raises TypeError (the C1
record documents this).  With the two arity slips corrected the flow is:
copy and verify the stream, complete the thin pack, decode the now
self-contained buffer and store each object individually through the INSERT
IGNORE statement; any failure discards the buffer and persists nothing. -/
def add_thin_pack_intended (repo : String) (table : ObjsTable)
    (getRaw : String → Option (Nat × List Nat)) (ts : ThinStream)
    (ext_refs : List String) : Option (ObjsTable × List GitObj) := do
  let completed ← _complete_thin_pack getRaw ts.entries ext_refs
  let objs ← decodePack completed
  some (objs.foldl (fun t o => add_object repo t o) table, objs)

/-! ## Theorems -/

theorem hasKey_iff (t : ObjsTable) (oid repo : String) :
    hasKey t oid repo = true ↔ ∃ r ∈ t, r.oid = oid ∧ r.repo = repo := by
  simp [hasKey, List.any_eq_true]

theorem countKey_eq_zero (t : ObjsTable) (oid repo : String)
    (h : hasKey t oid repo = false) : countKey t oid repo = 0 := by
  rw [countKey, List.countP_eq_zero]
  intro r hr hp
  simp only [Bool.and_eq_true, beq_iff_eq] at hp
  have : hasKey t oid repo = true := (hasKey_iff t oid repo).mpr ⟨r, hr, hp.1, hp.2⟩
  rw [this] at h
  exact Bool.true_eq_false.mp h

theorem countKey_le_one (t : ObjsTable) (oid repo : String) (h : TablePK t) :
    countKey t oid repo ≤ 1 := by
  induction t with
  | nil => simp [countKey]
  | cons r rest ih =>
    rw [TablePK, List.pairwise_cons] at h
    rw [countKey, List.countP_cons]
    by_cases hp : (r.oid == oid && r.repo == repo) = true
    · have h0 : List.countP (fun q => q.oid == oid && q.repo == repo) rest = 0 := by
        rw [List.countP_eq_zero]
        intro q hq hcon
        simp only [Bool.and_eq_true, beq_iff_eq] at hp hcon
        exact h.1 q hq ⟨hp.1.trans hcon.1.symm, hp.2.trans hcon.2.symm⟩
      rw [h0, hp]
      simp
    · have h1 := ih h.2
      rw [countKey] at h1
      simp only [Bool.not_eq_true] at hp
      rw [hp]
      simpa using h1

theorem countKey_pos (t : ObjsTable) (oid repo : String)
    (h : hasKey t oid repo = true) : 1 ≤ countKey t oid repo := by
  rcases (hasKey_iff t oid repo).mp h with ⟨r, hr, h1, h2⟩
  rw [countKey]
  refine List.countP_pos_iff.mpr ⟨r, hr, ?_⟩
  simp [h1, h2]

/-- C10: Model equality is decided solely by the identity key: two instances
compare equal exactly when the model class and primary-key value agree,
regardless of all other field data; an instance compares equal to the bare
(class, primary key) tuple exactly when the tuple equals its data key; and ne
is always the negation of eq. -/
theorem c10_model_eq_identity_key :
    ∀ (a b : MInst) (t : String × String) (o : EqOperand),
      (modelEq a (.model b) = true ↔ a.cls = b.cls ∧ a.pk = b.pk)
      ∧ (∀ fd fd2 : List (String × String),
          modelEq { a with fieldData := fd } (.model { b with fieldData := fd2 })
            = modelEq a (.model b))
      ∧ (modelEq a (.tup t) = true ↔ t = a.dataKey)
      ∧ modelNe a o = ! modelEq a o := by
  intro a b t o
  refine ⟨?_, ?_, ?_, rfl⟩
  · simp only [modelEq, MInst.dataKey, beq_iff_eq, Prod.mk.injEq]
    constructor
    · rintro ⟨h1, h2⟩; exact ⟨h1.symm, h2.symm⟩
    · rintro ⟨h1, h2⟩; exact ⟨h1.symm, h2.symm⟩
  · intro fd fd2
    simp only [modelEq, MInst.dataKey]
  · simp only [modelEq, beq_iff_eq]

/-- C6: object insertion is idempotent.  Starting from any table satisfying
the primary-key constraint, adding an object twice equals adding it once,
exactly one row with its key is stored afterwards and no error is possible
(the operation is total), the primary-key constraint is preserved, and stored
rows are never updated in place: the prior table is always a prefix of the new
table. -/
theorem c6_add_object_idempotent :
    ∀ (repo : String) (t : ObjsTable) (o : GitObj), TablePK t →
      add_object repo (add_object repo t o) o = add_object repo t o
      ∧ countKey (add_object repo t o) (objId o) repo = 1
      ∧ TablePK (add_object repo t o)
      ∧ t <+: add_object repo t o := by
  intro repo t o hpk
  by_cases h : hasKey t (objId o) repo = true
  · have hadd : add_object repo t o = t := by
      rw [add_object, insertIgnoreObj]
      simp [h]
    rw [hadd]
    exact ⟨hadd, le_antisymm (countKey_le_one t _ _ hpk) (countKey_pos t _ _ h),
      hpk, List.prefix_refl t⟩
  · have hb : hasKey t (objId o) repo = false := by
      exact Bool.not_eq_true _ |>.mp h
    have hadd : add_object repo t o
        = t ++ [⟨objId o, o.tnum, o.data.length, o.data, repo⟩] := by
      rw [add_object, insertIgnoreObj]
      simp [hb]
    refine ⟨?_, ?_, ?_, ?_⟩
    · have h2 : hasKey (add_object repo t o) (objId o) repo = true := by
        rw [hadd]
        refine (hasKey_iff _ _ _).mpr
          ⟨⟨objId o, o.tnum, o.data.length, o.data, repo⟩, by simp, rfl, rfl⟩
      rw [add_object, insertIgnoreObj]
      simp [h2]
    · have h0 := countKey_eq_zero t (objId o) repo hb
      rw [hadd, countKey, List.countP_append]
      rw [countKey] at h0
      rw [h0]
      simp
    · rw [hadd, TablePK, List.pairwise_append]
      refine ⟨hpk, by simp, ?_⟩
      intro a ha b hb2
      simp only [List.mem_singleton] at hb2
      subst hb2
      intro hab
      have : hasKey t (objId o) repo = true :=
        (hasKey_iff _ _ _).mpr ⟨a, ha, hab.1, hab.2⟩
      rw [this] at hb
      exact Bool.true_eq_false.mp hb
    · rw [hadd]
      exact List.prefix_append t _

/-- Witness for C6 at a concrete table and object. -/
theorem c6_add_object_idempotent_witness :
    TablePK [⟨"0:[7]", 0, 1, [7], "other"⟩]
    ∧ (add_object "r" (add_object "r" [⟨"0:[7]", 0, 1, [7], "other"⟩] ⟨3, [1, 2]⟩) ⟨3, [1, 2]⟩
        = add_object "r" [⟨"0:[7]", 0, 1, [7], "other"⟩] ⟨3, [1, 2]⟩
      ∧ countKey (add_object "r" [⟨"0:[7]", 0, 1, [7], "other"⟩] ⟨3, [1, 2]⟩)
          (objId ⟨3, [1, 2]⟩) "r" = 1
      ∧ TablePK (add_object "r" [⟨"0:[7]", 0, 1, [7], "other"⟩] ⟨3, [1, 2]⟩)
      ∧ [⟨"0:[7]", 0, 1, [7], "other"⟩]
          <+: add_object "r" [⟨"0:[7]", 0, 1, [7], "other"⟩] ⟨3, [1, 2]⟩) :=
  ⟨by decide,
   c6_add_object_idempotent "r" [⟨"0:[7]", 0, 1, [7], "other"⟩] ⟨3, [1, 2]⟩ (by decide)⟩

theorem read_update_ref (t : RefsTable) (repo name value : String) :
    read_loose_ref (update_ref t repo name value) repo name = some value := by
  rw [read_loose_ref, update_ref]
  induction t with
  | nil => simp [List.lookup]
  | cons p rest ih =>
    by_cases h : p.1 = (name, repo)
    · simpa [List.filter, h] using ih
    · have hne : (p.1 != (name, repo)) = true := by
        simpa using h
      have hne2 : ((name, repo) == p.1) = false := by
        simp only [beq_eq_false_iff_ne, ne_eq]
        intro hcon
        exact h hcon.symm
      simp only [List.filter, hne, List.cons_append, List.lookup, hne2]
      exact ih

/-- C4 counterexample: the claim states that with old_ref None, set_if_equals
writes unconditionally and returns true; but on the name "foo" (which does
not resolve to a name of the refs/ form) set_if_equals raises RefFormatError
and writes nothing instead of returning true. -/
theorem c4_set_if_equals_cex :
    set_if_equals [] "r" "foo" none "v" = .error .refFormatError := by
  rfl

/-- C4 (amended): for every ref compare-and-swap set_if_equals(name, old_ref,
new_ref): when old_ref is not None and the currently stored value for name
differs from old_ref, it returns false and performs no write; otherwise,
provided name resolves through the symbolic-ref chain and the resolved name
passes the refname validity check, it writes new_ref to the resolved ref name
and returns true (in particular, when old_ref is None the write happens
without any comparison); an unresolvable or invalid name raises instead of
writing. -/
theorem c4_set_if_equals_cas :
    ∀ (t : RefsTable) (repo name : String) (old_ref : Option String) (new_ref : String),
      (∀ o, old_ref = some o → read_loose_ref t repo name ≠ some o →
        set_if_equals t repo name old_ref new_ref = .ok (false, t))
      ∧ (∀ realname rest,
          (old_ref = none ∨ old_ref = read_loose_ref t repo name) →
          followBudget t repo 5 name = .ok (realname, rest) →
          check_refname realname = true →
          set_if_equals t repo name old_ref new_ref
            = .ok (true, update_ref t repo realname new_ref)
          ∧ read_loose_ref (update_ref t repo realname new_ref) repo realname
            = some new_ref) := by
  intro t repo name old_ref new_ref
  constructor
  · intro o hold hne
    subst hold
    rw [set_if_equals]
    exact if_pos fun h => hne h.symm
  · intro realname rest hold hfollow hcheck
    refine ⟨?_, read_update_ref t repo realname new_ref⟩
    have hproceed :
        (do
          let (rn, _) ← followBudget t repo 5 name
          if check_refname rn then
            .ok (true, update_ref t repo rn new_ref)
          else
            (.error .refFormatError : Except RefErr (Bool × RefsTable)))
          = .ok (true, update_ref t repo realname new_ref) := by
      rw [hfollow]
      simp [bind, Except.bind, hcheck]
    cases old_ref with
    | none =>
      rw [set_if_equals]
      exact hproceed
    | some o =>
      have heq : some o = read_loose_ref t repo name := by
        rcases hold with h | h
        · exact absurd h (by simp)
        · exact h
      rw [set_if_equals]
      rw [if_neg (not_not_intro heq)]
      exact hproceed

/-- Witness for C4 at a concrete table: a mismatching compare fails without a
write, and a compare-free set through the symbolic HEAD writes to the
resolved name refs/heads/m. -/
theorem c4_set_if_equals_cas_witness :
    set_if_equals [(("HEAD", "r"), "ref: refs/heads/m"), (("refs/heads/m", "r"), "aaa")]
        "r" "refs/heads/m" (some "bbb") "vvv"
      = .ok (false, [(("HEAD", "r"), "ref: refs/heads/m"), (("refs/heads/m", "r"), "aaa")])
    ∧ (set_if_equals [(("HEAD", "r"), "ref: refs/heads/m"), (("refs/heads/m", "r"), "aaa")]
          "r" "HEAD" none "vvv"
        = .ok (true, update_ref
            [(("HEAD", "r"), "ref: refs/heads/m"), (("refs/heads/m", "r"), "aaa")]
            "r" "refs/heads/m" "vvv")
      ∧ read_loose_ref (update_ref
            [(("HEAD", "r"), "ref: refs/heads/m"), (("refs/heads/m", "r"), "aaa")]
            "r" "refs/heads/m" "vvv") "r" "refs/heads/m"
        = some "vvv") := by
  refine ⟨?_, ?_⟩
  · exact (c4_set_if_equals_cas
      [(("HEAD", "r"), "ref: refs/heads/m"), (("refs/heads/m", "r"), "aaa")]
      "r" "refs/heads/m" (some "bbb") "vvv").1 "bbb" rfl (by decide)
  · exact (c4_set_if_equals_cas
      [(("HEAD", "r"), "ref: refs/heads/m"), (("refs/heads/m", "r"), "aaa")]
      "r" "HEAD" none "vvv").2 "refs/heads/m" (some "aaa") (Or.inl rfl) (by rfl) (by decide)

/-- C7: two instances of the same model constructed against the same storage
collaborator with the same primary-key value resolve data_store to the same
shared cell, so a set_data through either instance is immediately visible
through get_data on the other (in both directions). -/
theorem c7_shared_data_store :
    ∀ (st : Nat) (dk : String × String) (i1 i2 : Nat) (reg : Registry) (k v : String),
      data_store (some st) i1 dk = data_store (some st) i2 dk
      ∧ get_data (set_data reg (data_store (some st) i1 dk) default_snapshots k v)
          (data_store (some st) i2 dk) default_snapshots k = some v
      ∧ get_data (set_data reg (data_store (some st) i2 dk) default_snapshots k v)
          (data_store (some st) i1 dk) default_snapshots k = some v := by
  intro st dk i1 i2 reg k v
  refine ⟨rfl, ?_, ?_⟩ <;>
    simp [get_data, set_data, data_store, Registry.fetch, Registry.putCell,
      default_snapshots, SnapStore.set, SnapStore.get, SnapStore.gen, genSet,
      List.lookup]

/-- C5: the reconnecting unit-of-work runner commits and returns the result
on success; on an ERRORS-class transient failure it rolls back, reconnects
and re-invokes the entire operation, succeeding after one or after the
maximal three re-invocations when the operation recovers; four consecutive
transient failures exhaust the bound of RETRIES = 3 re-invocations and
re-raise the last caught error with its identity preserved; an
OperationalError with a code outside the retryable set re-raises immediately
with no retry; and every non-ERRORS exception rolls back and re-raises
immediately with no retry. -/
theorem c5_run_with_connection :
    ∀ {α : Type} (func : Nat → Except PyExc α) (log : List ConnEvent),
      (∀ r, func 0 = .ok r →
        runWithConnection func 0 log = (.ok r, log ++ retrySuccessLog 0 0))
      ∧ (∀ d0 r, func 0 = .error (.db d0) → giveUp 0 d0 = false → func 1 = .ok r →
        runWithConnection func 0 log = (.ok r, log ++ retrySuccessLog 0 1))
      ∧ (∀ d0 d1 d2 r, func 0 = .error (.db d0) → giveUp 0 d0 = false →
          func 1 = .error (.db d1) → giveUp 1 d1 = false →
          func 2 = .error (.db d2) → giveUp 2 d2 = false →
          func 3 = .ok r →
        runWithConnection func 0 log = (.ok r, log ++ retrySuccessLog 0 3))
      ∧ (∀ d0 d1 d2 d3, func 0 = .error (.db d0) → giveUp 0 d0 = false →
          func 1 = .error (.db d1) → giveUp 1 d1 = false →
          func 2 = .error (.db d2) → giveUp 2 d2 = false →
          func 3 = .error (.db d3) →
        runWithConnection func 0 log
          = (.error (.db d3), log ++ [.invoke 0, .rollback, .reconnect,
              .invoke 1, .rollback, .reconnect, .invoke 2, .rollback, .reconnect,
              .invoke 3]))
      ∧ (∀ c m, [2006, 2013, 1213].contains c = false →
          func 0 = .error (.db (.operationalError c m)) →
        runWithConnection func 0 log
          = (.error (.db (.operationalError c m)), log ++ [.invoke 0]))
      ∧ (∀ tag, func 0 = .error (.otherExc tag) →
        runWithConnection func 0 log
          = (.error (.otherExc tag), log ++ [.invoke 0, .rollback])) := by
  intro α func log
  refine ⟨?_, ?_, ?_, ?_, ?_, ?_⟩
  · intro r h0
    rw [runWithConnection]
    simp [h0, retrySuccessLog]
  · intro d0 r h0 hg0 h1
    rw [runWithConnection]
    simp only [h0, hg0]
    rw [runWithConnection]
    simp [h1, retrySuccessLog]
  · intro d0 d1 d2 r h0 hg0 h1 hg1 h2 hg2 h3
    rw [runWithConnection]
    simp only [h0, hg0]
    rw [runWithConnection]
    simp only [h1, hg1]
    rw [runWithConnection]
    simp only [h2, hg2]
    rw [runWithConnection]
    simp [h3, retrySuccessLog]
  · intro d0 d1 d2 d3 h0 hg0 h1 hg1 h2 hg2 h3
    have hg3 : giveUp 3 d3 = true := by
      simp [giveUp, RETRIES]
    rw [runWithConnection]
    simp only [h0, hg0]
    rw [runWithConnection]
    simp only [h1, hg1]
    rw [runWithConnection]
    simp only [h2, hg2]
    rw [runWithConnection]
    simp [h3, hg3]
  · intro c m hc h0
    have hg : giveUp 0 (.operationalError c m) = true := by
      have he : giveUp 0 (.operationalError c m)
          = (decide (0 ≥ RETRIES) || !([2006, 2013, 1213].contains c)) := rfl
      rw [he, hc]
      rfl
    rw [runWithConnection]
    simp [h0, hg]
  · intro tag h0
    rw [runWithConnection]
    simp [h0]

/-- Witness for C5: an operation that drops the connection on its first
attempt and succeeds on the second is retried once and committed. -/
theorem c5_run_with_connection_witness :
    runWithConnection
        (fun j => if j = 0 then .error (.db (.connectionLost 7)) else .ok 42) 0 []
      = (.ok 42, retrySuccessLog 0 1) := by
  have h := (c5_run_with_connection
    (fun j => if j = 0 then .error (.db (.connectionLost 7)) else .ok 42) []).2.1
    (.connectionLost 7) 42 rfl (by decide) rfl
  simpa using h

theorem modelLoad_none_storage (path : Option String) (o hi ipk : Bool)
    (fe : String → Bool) (s : LoadState) :
    modelLoad none path o hi ipk fe s = (s, .guardReturn) := rfl

theorem modelLoad_none_path (st : Nat) (o hi ipk : Bool)
    (fe : String → Bool) (s : LoadState) :
    modelLoad (some st) none o hi ipk fe s = (s, .guardReturn) := rfl

theorem modelLoad_guard (st : Nat) (q : String) (o hi ipk : Bool)
    (fe : String → Bool) (s : LoadState) (hg : (hi && o && !ipk) = true) :
    modelLoad (some st) (some q) o hi ipk fe s = (s, .guardReturn) := by
  simp [modelLoad, hg]

theorem modelLoad_dedup (st : Nat) (q : String) (o hi ipk : Bool)
    (fe : String → Bool) (s : LoadState) (hg : (hi && o && !ipk) = false)
    (hq : (st, q) ∈ s.loadedPaths) :
    modelLoad (some st) (some q) o hi ipk fe s = (s, .dedupHit) := by
  simp [modelLoad, hg, hq]

theorem modelLoad_absent (st : Nat) (q : String) (o hi ipk : Bool)
    (fe : String → Bool) (s : LoadState) (hg : (hi && o && !ipk) = false)
    (hq : (st, q) ∉ s.loadedPaths) (hex : fe q = false) :
    modelLoad (some st) (some q) o hi ipk fe s
      = (⟨s.loadedPaths ++ [(st, q)], s.trace ++ [.existsCheck q]⟩,
          if o then .emptyCollection else .missingFile) := by
  simp [modelLoad, hg, hq, hex]

theorem modelLoad_found (st : Nat) (q : String) (o hi ipk : Bool)
    (fe : String → Bool) (s : LoadState) (hg : (hi && o && !ipk) = false)
    (hq : (st, q) ∉ s.loadedPaths) (hex : fe q = true) :
    modelLoad (some st) (some q) o hi ipk fe s
      = (⟨s.loadedPaths ++ [(st, q)], s.trace ++ [.existsCheck q, .openRead q]⟩,
          .loadedDoc) := by
  simp [modelLoad, hg, hq, hex]

theorem ioCountAt_append_other (p : String) (tr evs : List StorageEvent)
    (hevs : ∀ ev ∈ evs, ev ≠ StorageEvent.existsCheck p) :
    ioCountAt p (tr ++ evs) = ioCountAt p tr := by
  rw [ioCountAt, List.countP_append, ioCountAt]
  have h0 : List.countP (fun ev => ev == StorageEvent.existsCheck p) evs = 0 := by
    rw [List.countP_eq_zero]
    intro ev hev
    simp only [beq_iff_eq]
    exact hevs ev hev
  rw [h0]
  omega

theorem ioCountAt_append_self (p : String) (tr rest : List StorageEvent) :
    ioCountAt p (tr ++ (StorageEvent.existsCheck p :: rest))
      = ioCountAt p tr + 1 + ioCountAt p rest := by
  rw [ioCountAt, List.countP_append, List.countP_cons, ioCountAt, ioCountAt]
  simp only [beq_self_eq_true, if_pos]
  omega

theorem modelLoad_member_invariant (st : Nat) (p : String) (fe : String → Bool)
    (c : LoadCall) (s : LoadState) (hmem : (st, p) ∈ s.loadedPaths) :
    (st, p) ∈ ((modelLoad (some st) c.path c.ownerModel c.hasInst c.instPkPresent
        fe s).1).loadedPaths
    ∧ ioCountAt p ((modelLoad (some st) c.path c.ownerModel c.hasInst
        c.instPkPresent fe s).1).trace = ioCountAt p s.trace := by
  rcases c with ⟨path, o, hi, ipk⟩
  cases path with
  | none => exact ⟨hmem, by rw [modelLoad_none_path]⟩
  | some q =>
    by_cases hg : (hi && o && !ipk) = true
    · rw [modelLoad_guard st q o hi ipk fe s hg]
      exact ⟨hmem, rfl⟩
    · have hg2 : (hi && o && !ipk) = false := Bool.not_eq_true _ |>.mp hg
      by_cases hq : (st, q) ∈ s.loadedPaths
      · rw [modelLoad_dedup st q o hi ipk fe s hg2 hq]
        exact ⟨hmem, rfl⟩
      · have hqp : q ≠ p := fun h => hq (h ▸ hmem)
        by_cases hex : fe q = true
        · rw [modelLoad_found st q o hi ipk fe s hg2 hq hex]
          refine ⟨List.mem_append_left _ hmem, ?_⟩
          refine ioCountAt_append_other p s.trace _ ?_
          intro ev hev
          simp only [List.mem_cons, List.mem_singleton, List.not_mem_nil] at hev
          rcases hev with h | h | h
          · subst h; simp [hqp]
          · subst h; simp
          · exact absurd h (by simp)
        · have hex2 : fe q = false := Bool.not_eq_true _ |>.mp hex
          rw [modelLoad_absent st q o hi ipk fe s hg2 hq hex2]
          refine ⟨List.mem_append_left _ hmem, ?_⟩
          refine ioCountAt_append_other p s.trace _ ?_
          intro ev hev
          simp only [List.mem_singleton] at hev
          subst hev
          simp [hqp]

theorem modelLoad_first_bound (st : Nat) (p : String) (fe : String → Bool)
    (c : LoadCall) (s : LoadState) (hmem : (st, p) ∉ s.loadedPaths) :
    (ioCountAt p ((modelLoad (some st) c.path c.ownerModel c.hasInst
        c.instPkPresent fe s).1).trace ≤ ioCountAt p s.trace + 1
      ∧ (st, p) ∈ ((modelLoad (some st) c.path c.ownerModel c.hasInst
        c.instPkPresent fe s).1).loadedPaths)
    ∨ ((st, p) ∉ ((modelLoad (some st) c.path c.ownerModel c.hasInst
        c.instPkPresent fe s).1).loadedPaths
      ∧ ioCountAt p ((modelLoad (some st) c.path c.ownerModel c.hasInst
        c.instPkPresent fe s).1).trace = ioCountAt p s.trace) := by
  rcases c with ⟨path, o, hi, ipk⟩
  cases path with
  | none => right; exact ⟨by rw [modelLoad_none_path]; exact hmem, by rw [modelLoad_none_path]⟩
  | some q =>
    by_cases hg : (hi && o && !ipk) = true
    · right
      rw [modelLoad_guard st q o hi ipk fe s hg]
      exact ⟨hmem, rfl⟩
    · have hg2 : (hi && o && !ipk) = false := Bool.not_eq_true _ |>.mp hg
      by_cases hq : (st, q) ∈ s.loadedPaths
      · right
        rw [modelLoad_dedup st q o hi ipk fe s hg2 hq]
        exact ⟨hmem, rfl⟩
      · by_cases hqp : q = p
        · subst hqp
          left
          by_cases hex : fe q = true
          · rw [modelLoad_found st q o hi ipk fe s hg2 hq hex]
            constructor
            · have : ioCountAt q (s.trace ++ [.existsCheck q, .openRead q])
                  = ioCountAt q s.trace + 1 + ioCountAt q [.openRead q] := by
                exact ioCountAt_append_self q s.trace [.openRead q]
              rw [this]
              have h1 : ioCountAt q [StorageEvent.openRead q] = 0 := by
                rw [ioCountAt, List.countP_eq_zero]
                intro ev hev
                simp only [List.mem_singleton] at hev
                subst hev
                simp
              omega
            · exact List.mem_append_right _ (by simp)
          · have hex2 : fe q = false := Bool.not_eq_true _ |>.mp hex
            rw [modelLoad_absent st q o hi ipk fe s hg2 hq hex2]
            constructor
            · have : ioCountAt q (s.trace ++ [.existsCheck q])
                  = ioCountAt q s.trace + 1 + ioCountAt q [] := by
                exact ioCountAt_append_self q s.trace []
              rw [this]
              have h1 : ioCountAt q ([] : List StorageEvent) = 0 := rfl
              omega
            · exact List.mem_append_right _ (by simp)
        · right
          have hnm : (st, p) ∉ s.loadedPaths ++ [(st, q)] := by
            intro hcon
            rcases List.mem_append.mp hcon with h | h
            · exact hmem h
            · simp only [List.mem_singleton, Prod.mk.injEq] at h
              exact hqp h.2.symm
          by_cases hex : fe q = true
          · rw [modelLoad_found st q o hi ipk fe s hg2 hq hex]
            refine ⟨hnm, ?_⟩
            refine ioCountAt_append_other p s.trace _ ?_
            intro ev hev
            simp only [List.mem_cons, List.mem_singleton, List.not_mem_nil] at hev
            rcases hev with h | h | h
            · subst h; simp [hqp]
            · subst h; simp
            · exact absurd h (by simp)
          · have hex2 : fe q = false := Bool.not_eq_true _ |>.mp hex
            rw [modelLoad_absent st q o hi ipk fe s hg2 hq hex2]
            refine ⟨hnm, ?_⟩
            refine ioCountAt_append_other p s.trace _ ?_
            intro ev hev
            simp only [List.mem_singleton] at hev
            subst hev
            simp [hqp]

theorem runLoads_io_bound (st : Nat) (p : String) (fe : String → Bool) :
    ∀ (calls : List LoadCall) (s : LoadState),
      ioCountAt p (runLoads (some st) fe calls s).trace
        ≤ ioCountAt p s.trace + (if (st, p) ∈ s.loadedPaths then 0 else 1) := by
  intro calls
  induction calls with
  | nil =>
    intro s
    rw [runLoads]
    simp only [List.foldl_nil]
    split <;> omega
  | cons c rest ih =>
    intro s
    rw [runLoads, List.foldl_cons]
    have hrl : ∀ s2 : LoadState, (rest.foldl
        (fun st2 c2 => (modelLoad (some st) c2.path c2.ownerModel c2.hasInst
          c2.instPkPresent fe st2).1) s2) = runLoads (some st) fe rest s2 := by
      intro s2
      rw [runLoads]
    rw [hrl]
    by_cases hmem : (st, p) ∈ s.loadedPaths
    · have h1 := modelLoad_member_invariant st p fe c s hmem
      have h2 := ih ((modelLoad (some st) c.path c.ownerModel c.hasInst
        c.instPkPresent fe s).1)
      rw [if_pos h1.1] at h2
      rw [if_pos hmem]
      omega
    · rcases modelLoad_first_bound st p fe c s hmem with ⟨hle, hin⟩ | ⟨hout, heq⟩
      · have h2 := ih ((modelLoad (some st) c.path c.ownerModel c.hasInst
          c.instPkPresent fe s).1)
        rw [if_pos hin] at h2
        rw [if_neg hmem]
        omega
      · have h2 := ih ((modelLoad (some st) c.path c.ownerModel c.hasInst
          c.instPkPresent fe s).1)
        rw [if_neg hout] at h2
        rw [if_neg hmem]
        omega

/-- C8: lazy resolution loads a document at most once per (storage, path)
pair.  (a) Accessing a file-backed field that is absent from all generations
(and is not being initialized) on an instance with an attached storage
triggers the load.  (b) A load for a pair already in the per-storage loaded
set leaves the state untouched: no storage I/O is performed.  (c) The first
load that passes the early guards records the pair in the loaded set.
(d) Over any sequence of loads against the storage, the number of
storage.exists probes of a path exceeds the initial count by at most one. -/
theorem c8_load_once_per_storage_path :
    ∀ (st : Nat) (p : String) (fe : String → Bool),
      (∀ (fileFields initializing : List String) (present : String → Bool)
          (a : String), a ∈ fileFields → ¬ a ∈ initializing → present a = false →
        resolve_attributes true fileFields initializing present [a] = true)
      ∧ (∀ (s : LoadState) (o hi ipk : Bool), (st, p) ∈ s.loadedPaths →
        ((modelLoad (some st) (some p) o hi ipk fe s).1) = s)
      ∧ (∀ (s : LoadState) (o hi ipk : Bool), ¬ (st, p) ∈ s.loadedPaths →
          (hi && o && !ipk) = false →
        (st, p) ∈ ((modelLoad (some st) (some p) o hi ipk fe s).1).loadedPaths)
      ∧ (∀ (calls : List LoadCall) (s : LoadState),
        ioCountAt p (runLoads (some st) fe calls s).trace
          ≤ ioCountAt p s.trace + (if (st, p) ∈ s.loadedPaths then 0 else 1)) := by
  intro st p fe
  refine ⟨?_, ?_, ?_, fun calls s => runLoads_io_bound st p fe calls s⟩
  · intro fileFields initializing present a ha hni hp
    simp [resolve_attributes, ha, hni, hp]
  · intro s o hi ipk hmem
    by_cases hg : (hi && o && !ipk) = true
    · rw [modelLoad_guard st p o hi ipk fe s hg]
    · have hg2 : (hi && o && !ipk) = false := Bool.not_eq_true _ |>.mp hg
      rw [modelLoad_dedup st p o hi ipk fe s hg2 hmem]
  · intro s o hi ipk hmem hg
    by_cases hex : fe p = true
    · rw [modelLoad_found st p o hi ipk fe s hg hmem hex]
      exact List.mem_append_right _ (by simp)
    · have hex2 : fe p = false := Bool.not_eq_true _ |>.mp hex
      rw [modelLoad_absent st p o hi ipk fe s hg hmem hex2]
      exact List.mem_append_right _ (by simp)

/-- Witness for C8 at a concrete storage, path and call sequence: loading the
same pair twice performs the exists probe once, the first call records the
pair, and the second call is a state-preserving dedup hit. -/
theorem c8_load_once_per_storage_path_witness :
    resolve_attributes true ["field"] [] (fun _ => false) ["field"] = true
    ∧ ((modelLoad (some 0) (some "project.json") false true true (fun _ => true)
        ⟨[(0, "project.json")], [.existsCheck "project.json", .openRead "project.json"]⟩).1)
      = ⟨[(0, "project.json")], [.existsCheck "project.json", .openRead "project.json"]⟩
    ∧ (0, "project.json") ∈ ((modelLoad (some 0) (some "project.json") false true true
        (fun _ => true) ⟨[], []⟩).1).loadedPaths
    ∧ ioCountAt "project.json"
        (runLoads (some 0) (fun _ => true)
          [⟨some "project.json", false, true, true⟩,
           ⟨some "project.json", false, true, true⟩] ⟨[], []⟩).trace
      ≤ ioCountAt "project.json" (⟨[], []⟩ : LoadState).trace
        + (if ((0 : Nat), "project.json") ∈ (⟨[], []⟩ : LoadState).loadedPaths
           then 0 else 1) := by
  have h := c8_load_once_per_storage_path 0 "project.json" (fun _ => true)
  refine ⟨?_, ?_, ?_, ?_⟩
  · exact h.1 ["field"] [] (fun _ => false) "field" (by simp) (by simp) rfl
  · exact h.2.1 ⟨[(0, "project.json")],
      [.existsCheck "project.json", .openRead "project.json"]⟩ false true true (by simp)
  · exact h.2.2.1 ⟨[], []⟩ false true true (by simp) rfl
  · exact h.2.2.2 [⟨some "project.json", false, true, true⟩,
      ⟨some "project.json", false, true, true⟩] ⟨[], []⟩

/-- C9: the entity Schema(id=s1, name=default) with no child fields dumps to
the envelope document with the single key s1 whose body holds exactly the
members fields (an empty object) and name (default) with the primary key
hoisted into the envelope key and removed from the body (keys in sorted
order: fields before name); loading that document (in either member order)
yields a Schema whose fields collection is empty and whose name is default,
and the dump itself loads back to the same entity. -/
theorem c9_schema_envelope_roundtrip :
    schemaDump ⟨"s1", "default", []⟩
      = some (Json.obj [("s1",
          Json.obj [("fields", Json.obj []), ("name", Json.str "default")])])
    ∧ schemaLoadOne (Json.obj [("s1",
          Json.obj [("name", Json.str "default"), ("fields", Json.obj [])])])
      = .ok ⟨"s1", "default", []⟩
    ∧ schemaLoadOne (Json.obj [("s1",
          Json.obj [("fields", Json.obj []), ("name", Json.str "default")])])
      = .ok ⟨"s1", "default", []⟩ := by
  refine ⟨rfl, rfl, rfl⟩

/-- C2: evaluation of the commit loop at two dirty entities that share the
old path "old.json" but move to the distinct new paths "q.json" and "r.json"
(their path template is the single field p, staged respectively to q.json and
r.json over the shared committed value old.json).  Storage.save is called
once per distinct new path, but Storage.delete is called TWICE on the same
old path: the dedup test consults the new path while the recorded key is the
old path, so deletes are not deduplicated across entities sharing an old
path, contradicting the claim. -/
theorem c2_commit_delete_dedup_bug :
    commit_changes
        [⟨⟨[], [("p", "q.json")], [("p", "old.json")]⟩, ["p"], [.fieldRef "p"]⟩,
         ⟨⟨[], [("p", "r.json")], [("p", "old.json")]⟩, ["p"], [.fieldRef "p"]⟩]
      = [.save (some "q.json"), .delete (some "old.json"),
         .save (some "r.json"), .delete (some "old.json")]
    ∧ (commit_changes
        [⟨⟨[], [("p", "q.json")], [("p", "old.json")]⟩, ["p"], [.fieldRef "p"]⟩,
         ⟨⟨[], [("p", "r.json")], [("p", "old.json")]⟩, ["p"], [.fieldRef "p"]⟩]).countP
        (fun c => c == .delete (some "old.json")) = 2 := by
  refine ⟨rfl, rfl⟩

theorem getRef_setRef_same (s : HMState) (e : Entity) (v : Option Entity) :
    (s.setRef e v).getRef e = v := by
  simp [HMState.getRef, HMState.setRef, List.lookup]

theorem getColl_setRef (s : HMState) (e : Entity) (v : Option Entity) (e2 : Entity) :
    (s.setRef e v).getColl e2 = s.getColl e2 := rfl

theorem getColl_updColl_same (s : HMState) (e : Entity) (f : List Entity → List Entity) :
    (s.updColl e f).getColl e = f (s.getColl e) := by
  simp [HMState.getColl, HMState.updColl, List.lookup]

theorem getColl_updColl_other (s : HMState) (e : Entity) (f : List Entity → List Entity)
    (e2 : Entity) (h : e2 ≠ e) : (s.updColl e f).getColl e2 = s.getColl e2 := by
  have hb : (e2 == e) = false := beq_eq_false_iff_ne.mpr h
  simp [HMState.getColl, HMState.updColl, List.lookup, hb]

theorem getRef_updColl (s : HMState) (e : Entity) (f : List Entity → List Entity)
    (e2 : Entity) : (s.updColl e f).getRef e2 = s.getRef e2 := rfl

theorem mem_collAdd (xs : List Entity) (e : Entity) : e ∈ collAdd xs e := by
  by_cases h : e ∈ xs <;> simp [collAdd, h]

theorem not_mem_collDiscard (xs : List Entity) (e : Entity) : e ∉ collDiscard xs e := by
  intro hcon
  rcases List.mem_filter.mp hcon with ⟨_, hne⟩
  simp at hne

theorem getA_setA_same (s : OOState) (e : Entity) (v : Option Entity) :
    (s.setA e v).getA e = v := by
  simp [OOState.getA, OOState.setA, List.lookup]

theorem getA_setA_other (s : OOState) (e : Entity) (v : Option Entity) (e2 : Entity)
    (h : e2 ≠ e) : (s.setA e v).getA e2 = s.getA e2 := by
  have hb : (e2 == e) = false := beq_eq_false_iff_ne.mpr h
  simp [OOState.getA, OOState.setA, List.lookup, hb]

theorem getB_setB_same (s : OOState) (e : Entity) (v : Option Entity) :
    (s.setB e v).getB e = v := by
  simp [OOState.getB, OOState.setB, List.lookup]

theorem getB_setB_other (s : OOState) (e : Entity) (v : Option Entity) (e2 : Entity)
    (h : e2 ≠ e) : (s.setB e v).getB e2 = s.getB e2 := by
  have hb : (e2 == e) = false := beq_eq_false_iff_ne.mpr h
  simp [OOState.getB, OOState.setB, List.lookup, hb]

theorem getA_setB (s : OOState) (e : Entity) (v : Option Entity) (e2 : Entity) :
    (s.setB e v).getA e2 = s.getA e2 := rfl

theorem getB_setA (s : OOState) (e : Entity) (v : Option Entity) (e2 : Entity) :
    (s.setA e v).getB e2 = s.getB e2 := rfl

/-- C3 counterexample: the claim requires a ValidationError whenever the
assigned value is not an instance of the related model, before either side is
touched; but assigning None (which is not an instance of any model) succeeds:
on a child c1 currently linked to parent p1 it returns normally and detaches,
instead of raising. -/
theorem c3_none_assignment_cex :
    belongsToSet "P"
        ⟨[(⟨"C", "c1"⟩, some ⟨"P", "p1"⟩)], [(⟨"P", "p1"⟩, [⟨"C", "c1"⟩])]⟩
        ⟨"C", "c1"⟩ none
      = .ok ⟨[(⟨"C", "c1"⟩, none), (⟨"C", "c1"⟩, some ⟨"P", "p1"⟩)],
             [(⟨"P", "p1"⟩, []), (⟨"P", "p1"⟩, [⟨"C", "c1"⟩])]⟩ := by
  rfl

/-- C3 (amended): assigning to a belongs-to field validates a non-None value
first and fails entirely with ValidationError, before either side is touched,
when the value is not an instance of the related model; assigning None is
accepted and performs only the detach half.  When the assigned value differs
from the current one under Model equality, after control returns the
assigning side holds the new value, the inverse side of the new value references
the instance (collection inverse: the instance is in the collection; scalar
one-to-one inverse: the back-reference equals the instance), the inverse
side of the old value no longer references the instance, and in the
one-to-one cases the fields of uninvolved entities do not change. -/
theorem c3_belongs_to_inverse_sync :
    (∀ (relatedCls : String) (s : HMState) (inst v : Entity),
      v.cls ≠ relatedCls →
      belongsToSet relatedCls s inst (some v)
        = .error "ValidationError: not an instance of the related model")
    ∧ (∀ (relatedCls : String) (s : HMState) (inst b : Entity),
      b.cls = relatedCls → some b ≠ s.getRef inst →
      ∃ s3, belongsToSet relatedCls s inst (some b) = .ok s3
        ∧ s3.getRef inst = some b
        ∧ inst ∈ s3.getColl b
        ∧ (∀ old, s.getRef inst = some old → inst ∉ s3.getColl old))
    ∧ (∀ (relatedCls : String) (s : HMState) (inst old : Entity),
      s.getRef inst = some old →
      ∃ s3, belongsToSet relatedCls s inst none = .ok s3
        ∧ s3.getRef inst = none
        ∧ inst ∉ s3.getColl old)
    ∧ (∀ (clsA clsB : String) (fuel : Nat) (side : Bool) (s : OOState) (inst v : Entity),
      v.cls ≠ (if side then clsB else clsA) →
      ooSet clsA clsB (fuel + 1) side s inst (some v)
        = .error "ValidationError: not an instance of the related model")
    ∧ (∀ (clsA clsB : String) (s : OOState) (a old b c : Entity),
      a.cls = clsA → b.cls = clsB →
      s.getA a = some old → s.getB old = some a →
      s.getB b = some c → s.getA c = some b → b ≠ old →
      ∃ s4, ooSet clsA clsB 8 true s a (some b) = .ok (some s4)
        ∧ s4.getA a = some b ∧ s4.getB b = some a
        ∧ s4.getB old = none ∧ s4.getA c = none
        ∧ (∀ x, x ≠ a → x ≠ c → s4.getA x = s.getA x)
        ∧ (∀ y, y ≠ old → y ≠ b → s4.getB y = s.getB y))
    ∧ (∀ (clsA clsB : String) (s : OOState) (a b : Entity),
      a.cls = clsA → b.cls = clsB →
      s.getA a = none → s.getB b = none →
      ∃ s4, ooSet clsA clsB 8 true s a (some b) = .ok (some s4)
        ∧ s4.getA a = some b ∧ s4.getB b = some a
        ∧ (∀ x, x ≠ a → s4.getA x = s.getA x)
        ∧ (∀ y, y ≠ b → s4.getB y = s.getB y))
    ∧ (∀ (clsA clsB : String) (s : OOState) (a old b : Entity),
      a.cls = clsA → b.cls = clsB →
      s.getA a = some old → s.getB old = some a → s.getB b = none → b ≠ old →
      ∃ s4, ooSet clsA clsB 8 true s a (some b) = .ok (some s4)
        ∧ s4.getA a = some b ∧ s4.getB b = some a ∧ s4.getB old = none
        ∧ (∀ x, x ≠ a → s4.getA x = s.getA x)
        ∧ (∀ y, y ≠ old → y ≠ b → s4.getB y = s.getB y))
    ∧ (∀ (clsA clsB : String) (s : OOState) (a b c : Entity),
      a.cls = clsA → b.cls = clsB →
      s.getA a = none → s.getB b = some c → s.getA c = some b →
      ∃ s4, ooSet clsA clsB 8 true s a (some b) = .ok (some s4)
        ∧ s4.getA a = some b ∧ s4.getB b = some a ∧ s4.getA c = none
        ∧ (∀ x, x ≠ a → x ≠ c → s4.getA x = s.getA x)
        ∧ (∀ y, y ≠ b → s4.getB y = s.getB y)) := by
  refine ⟨?_, ?_, ?_, ?_, ?_, ?_, ?_, ?_⟩
  · intro relatedCls s inst v hv
    simp only [belongsToSet, hv, ne_eq, not_false_iff, if_true, ite_true]
    rfl
  · intro relatedCls s inst b hb hne
    cases hcur : s.getRef inst with
    | none =>
      refine ⟨(s.setRef inst (some b)).updColl b (fun xs => collAdd xs inst),
        ?_, ?_, ?_, ?_⟩
      · simp [belongsToSet, hb, hcur]
        rfl
      · rw [getRef_updColl, getRef_setRef_same]
      · rw [getColl_updColl_same]
        exact mem_collAdd _ _
      · intro old hold
        exact absurd hold (by simp)
    | some old =>
      have hbo : ¬ b = old := by
        intro h
        apply hne
        rw [hcur, h]
      refine ⟨((s.setRef inst (some b)).updColl old
          (fun xs => collDiscard xs inst)).updColl b (fun xs => collAdd xs inst),
        ?_, ?_, ?_, ?_⟩
      · simp [belongsToSet, hb, hcur, hbo]
        rfl
      · rw [getRef_updColl, getRef_updColl, getRef_setRef_same]
      · rw [getColl_updColl_same]
        exact mem_collAdd _ _
      · intro old2 hold2
        injection hold2 with h
        subst h
        rw [getColl_updColl_other _ _ _ _ (fun h => hbo h.symm), getColl_updColl_same]
        exact not_mem_collDiscard _ _
  · intro relatedCls s inst old hold
    refine ⟨(s.setRef inst none).updColl old (fun xs => collDiscard xs inst),
      ?_, ?_, ?_⟩
    · simp [belongsToSet, hold]
      rfl
    · rw [getRef_updColl, getRef_setRef_same]
    · rw [getColl_updColl_same]
      exact not_mem_collDiscard _ _
  · intro clsA clsB fuel side s inst v hv
    simp only [ooSet, hv, ne_eq, not_false_iff, if_true, ite_true]
    rfl
  · intro clsA clsB s a old b c hA hB h1 h2 h3 h4 hbo
    have hac : a ≠ c := by
      intro h
      rw [h, h4] at h1
      injection h1 with h5
      exact hbo h5
    have hca : c ≠ a := hac.symm
    have hob : old ≠ b := hbo.symm
    refine ⟨((((((s.setA a (some b)).setB old none).setA a none).setB b none).setA
        c none).setB b (some a)).setA a (some b), ?_, ?_, ?_, ?_, ?_, ?_, ?_⟩
    · simp [ooSet, hA, hB, h1, h2, h3, h4, hbo, hob, hac, hca,
        getA_setA_same, getA_setA_other, getB_setB_same, getB_setB_other,
        getA_setB, getB_setA, bind, Except.bind, pure, Except.pure]
    · simp [getA_setA_same, getA_setB]
    · simp [getB_setB_same, getB_setA]
    · simp [getB_setB_same, getB_setB_other, getB_setA, hob]
    · simp [getA_setA_same, getA_setA_other, getA_setB, hca]
    · intro x hxa hxc
      simp [getA_setA_other, getA_setB, hxa, hxc]
    · intro y hyo hyb
      simp [getB_setB_other, getB_setA, hyo, hyb]
  · intro clsA clsB s a b hA hB h1 h2
    refine ⟨(s.setA a (some b)).setB b (some a), ?_, ?_, ?_, ?_, ?_⟩
    · simp [ooSet, hA, hB, h1, h2, getA_setA_same, getB_setB_same, getA_setB,
        getB_setA, bind, Except.bind, pure, Except.pure]
    · simp [getA_setA_same, getA_setB]
    · simp [getB_setB_same]
    · intro x hxa
      simp [getA_setA_other, getA_setB, hxa]
    · intro y hyb
      simp [getB_setB_other, getB_setA, hyb]
  · intro clsA clsB s a old b hA hB h1 h2 h3 hbo
    have hob : old ≠ b := hbo.symm
    refine ⟨((((s.setA a (some b)).setB old none).setA a none).setB b (some a)).setA
        a (some b), ?_, ?_, ?_, ?_, ?_, ?_⟩
    · simp [ooSet, hA, hB, h1, h2, h3, hbo, hob, getA_setA_same, getA_setA_other,
        getB_setB_same, getB_setB_other, getA_setB, getB_setA,
        bind, Except.bind, pure, Except.pure]
    · simp [getA_setA_same, getA_setB]
    · simp [getB_setB_same, getB_setA]
    · simp [getB_setB_other, getB_setB_same, getB_setA, hob]
    · intro x hxa
      simp [getA_setA_other, getA_setB, hxa]
    · intro y hyo hyb
      simp [getB_setB_other, getB_setA, hyo, hyb]
  · intro clsA clsB s a b c hA hB h1 h2 h3
    have hac : a ≠ c := by
      intro h
      rw [h, h3] at h1
      exact absurd h1 (by simp)
    have hca : c ≠ a := hac.symm
    refine ⟨((((((s.setA a (some b)).setB b (some a)).setA c none).setB b none).setA
        a none).setA a (some b)).setB b (some a), ?_, ?_, ?_, ?_, ?_, ?_⟩
    · simp [ooSet, hA, hB, h1, h2, h3, hac, hca, getA_setA_same, getA_setA_other,
        getB_setB_same, getB_setB_other, getA_setB, getB_setA,
        bind, Except.bind, pure, Except.pure]
    · simp [getA_setA_same, getA_setA_other, getA_setB, hca]
    · simp [getB_setB_same]
    · simp [getA_setA_other, getA_setA_same, getA_setB, hca]
    · intro x hxa hxc
      simp [getA_setA_other, getA_setB, hxa, hxc]
    · intro y hyb
      simp [getB_setB_other, getB_setA, hyb]

/-- Witness for C3 at concrete entities: moving child c1 from parent p1 to
parent p2 leaves c1 pointing at p2 with the collection of p2 containing c1, and a
one-to-one reassignment in a fully linked four-entity state ends with both
sides mutually consistent. -/
theorem c3_belongs_to_inverse_sync_witness :
    (∃ s3, belongsToSet "P"
        ⟨[(⟨"C", "c1"⟩, some ⟨"P", "p1"⟩)], [(⟨"P", "p1"⟩, [⟨"C", "c1"⟩])]⟩
        ⟨"C", "c1"⟩ (some ⟨"P", "p2"⟩) = .ok s3
      ∧ s3.getRef ⟨"C", "c1"⟩ = some ⟨"P", "p2"⟩
      ∧ ⟨"C", "c1"⟩ ∈ s3.getColl ⟨"P", "p2"⟩
      ∧ ⟨"C", "c1"⟩ ∉ s3.getColl ⟨"P", "p1"⟩)
    ∧ (∃ s4, ooSet "A" "B" 8 true
        ⟨[(⟨"A", "a"⟩, some ⟨"B", "o"⟩), (⟨"A", "c"⟩, some ⟨"B", "b"⟩)],
         [(⟨"B", "o"⟩, some ⟨"A", "a"⟩), (⟨"B", "b"⟩, some ⟨"A", "c"⟩)]⟩
        ⟨"A", "a"⟩ (some ⟨"B", "b"⟩) = .ok (some s4)
      ∧ s4.getA ⟨"A", "a"⟩ = some ⟨"B", "b"⟩
      ∧ s4.getB ⟨"B", "b"⟩ = some ⟨"A", "a"⟩
      ∧ s4.getB ⟨"B", "o"⟩ = none
      ∧ s4.getA ⟨"A", "c"⟩ = none) := by
  constructor
  · obtain ⟨s3, e1, e2, e3, e4⟩ := c3_belongs_to_inverse_sync.2.1 "P"
      ⟨[(⟨"C", "c1"⟩, some ⟨"P", "p1"⟩)], [(⟨"P", "p1"⟩, [⟨"C", "c1"⟩])]⟩
      ⟨"C", "c1"⟩ ⟨"P", "p2"⟩ rfl (by decide)
    exact ⟨s3, e1, e2, e3, e4 ⟨"P", "p1"⟩ (by decide)⟩
  · obtain ⟨s4, e1, e2, e3, e4, e5, _, _⟩ := c3_belongs_to_inverse_sync.2.2.2.2.1
      "A" "B"
      ⟨[(⟨"A", "a"⟩, some ⟨"B", "o"⟩), (⟨"A", "c"⟩, some ⟨"B", "b"⟩)],
       [(⟨"B", "o"⟩, some ⟨"A", "a"⟩), (⟨"B", "b"⟩, some ⟨"A", "c"⟩)]⟩
      ⟨"A", "a"⟩ ⟨"B", "o"⟩ ⟨"B", "b"⟩ ⟨"A", "c"⟩ rfl rfl (by decide) (by decide)
      (by decide) (by decide) (by decide)
    exact ⟨s4, e1, e2, e3, e4, e5⟩

theorem optMapM_some {α β : Type} (f : α → Option β) :
    ∀ l : List α, (∀ x ∈ l, ∃ y, f x = some y) →
    ∃ ys, optMapM f l = some ys ∧ List.Forall₂ (fun x y => f x = some y) l ys := by
  intro l
  induction l with
  | nil => exact fun _ => ⟨[], rfl, List.Forall₂.nil⟩
  | cons x xs ih =>
    intro h
    obtain ⟨y, hy⟩ := h x (by simp)
    obtain ⟨ys, hys, hfa⟩ := ih fun z hz => h z (by simp [hz])
    refine ⟨y :: ys, ?_, List.Forall₂.cons hy hfa⟩
    simp [optMapM, hy, hys]

theorem optMapM_none {α β : Type} (f : α → Option β) :
    ∀ l : List α, (∃ x ∈ l, f x = none) → optMapM f l = none := by
  intro l
  induction l with
  | nil => rintro ⟨x, hx, _⟩; simp at hx
  | cons x xs ih =>
    rintro ⟨z, hz, hnone⟩
    rcases List.mem_cons.mp hz with h1 | h2
    · subst h1
      simp [optMapM, hnone]
    · cases hx : f x with
      | none => simp [optMapM, hx]
      | some y => simp [optMapM, hx, ih ⟨z, h2, hnone⟩]

theorem splitEntries_append (d : Nat) :
    ∀ es : List PackEntry,
      splitEntries (es.map Tok.ent ++ [Tok.trailerTok d]) = some (es, d) := by
  intro es
  induction es with
  | nil => rfl
  | cons e rest ih => simp [splitEntries, ih]

theorem forall2_mem_left {α β : Type} {R : α → β → Prop} :
    ∀ {l1 : List α} {l2 : List β}, List.Forall₂ R l1 l2 →
      ∀ x ∈ l1, ∃ y ∈ l2, R x y := by
  intro l1 l2 h
  induction h with
  | nil => intro x hx; simp at hx
  | cons hR _ ih =>
    intro x hx
    rcases List.mem_cons.mp hx with h1 | h2
    · subst h1
      exact ⟨_, by simp, hR⟩
    · obtain ⟨y, hy, hRy⟩ := ih x h2
      exact ⟨y, by simp [hy], hRy⟩

theorem hasKey_add_object_mono (repo : String) (t : ObjsTable) (o : GitObj)
    (oid rp : String) (h : hasKey t oid rp = true) :
    hasKey (add_object repo t o) oid rp = true := by
  rw [add_object, insertIgnoreObj]
  split
  · exact h
  · rw [hasKey] at h ⊢
    rw [List.any_append]
    simp [h]

theorem hasKey_add_object_self (repo : String) (t : ObjsTable) (o : GitObj) :
    hasKey (add_object repo t o) (objId o) repo = true := by
  rw [add_object, insertIgnoreObj]
  split
  · assumption
  · rw [hasKey, List.any_append]
    simp

theorem hasKey_foldl_mono (repo : String) :
    ∀ (l : List GitObj) (t : ObjsTable) (oid rp : String),
      hasKey t oid rp = true →
      hasKey (l.foldl (fun t2 o2 => add_object repo t2 o2) t) oid rp = true := by
  intro l
  induction l with
  | nil => intro t oid rp h; exact h
  | cons x xs ih =>
    intro t oid rp h
    rw [List.foldl_cons]
    exact ih _ oid rp (hasKey_add_object_mono repo t x oid rp h)

theorem hasKey_foldl_add (repo : String) :
    ∀ (l : List GitObj) (t : ObjsTable) (o : GitObj), o ∈ l →
      hasKey (l.foldl (fun t2 o2 => add_object repo t2 o2) t) (objId o) repo = true := by
  intro l
  induction l with
  | nil => intro t o h; simp at h
  | cons x xs ih =>
    intro t o h
    rw [List.foldl_cons]
    rcases List.mem_cons.mp h with h1 | h2
    · subst h1
      exact hasKey_foldl_mono repo xs _ _ _ (hasKey_add_object_self repo t o)
    · exact ih _ o h2

theorem fetched_structure (getRaw : String → Option (Nat × List Nat)) :
    ∀ {oids : List String} {toks : List Tok},
      List.Forall₂ (fun oid tok =>
        ((getRaw oid).map fun td => Tok.ent (PackEntry.full td.1 td.2)) = some tok)
        oids toks →
      ∃ extObjs : List GitObj,
        toks = extObjs.map (fun o => Tok.ent (.full o.tnum o.data))
        ∧ List.Forall₂ (fun oid (o : GitObj) => getRaw oid = some (o.tnum, o.data))
            oids extObjs := by
  intro oids toks h
  induction h with
  | nil => exact ⟨[], rfl, List.Forall₂.nil⟩
  | cons hR hrest ih =>
    obtain ⟨objs0, he, hf⟩ := ih
    obtain ⟨td, h1, h2⟩ := Option.map_eq_some'.mp hR
    refine ⟨⟨td.1, td.2⟩ :: objs0, ?_, List.Forall₂.cons ?_ hf⟩
    · rw [List.map_cons, he, ← h2]
    · rw [h1]

theorem decodePack_eval (allE : List PackEntry) (count d : Nat)
    (hc : allE.length = count)
    (hall : ∀ e ∈ allE, ∃ g, decodeEntry (fullObjs
      (Tok.hdr 2 count :: (allE.map Tok.ent ++ [Tok.trailerTok d]))) e = some g) :
    ∃ objs, decodePack (Tok.hdr 2 count :: (allE.map Tok.ent ++ [Tok.trailerTok d]))
        = some objs
      ∧ List.Forall₂ (fun e g => decodeEntry (fullObjs
          (Tok.hdr 2 count :: (allE.map Tok.ent ++ [Tok.trailerTok d]))) e = some g)
        allE objs := by
  obtain ⟨objs, hobjs, hfa⟩ := optMapM_some _ _ hall
  refine ⟨objs, ?_, hfa⟩
  simp only [decodePack]
  rw [splitEntries_append]
  simp [hc, hobjs]

/-- C1 (intended algorithm; the shipped entry point crashes before reaching
it, see the C1 record): for every verified thin stream with N entries and M
external references, when every external reference resolves in the object
store (whose rows are content-addressed, so the oid of a fetched object is the
requested oid) and every delta base is an in-stream full entry or an external
reference, the completion produces a self-contained buffer whose patched
header records N + M objects, whose body is the original entries followed by
the M fetched objects appended as full non-delta entries, and whose trailing
checksum is the rolling content checksum over every token of the patched
buffer except the trailing checksum itself; the buffer decodes to exactly
N + M objects and add_thin_pack persists each of them individually through
the INSERT IGNORE statement; and when fetching any external reference fails,
nothing is persisted. -/
theorem c1_add_thin_pack_completion :
    ∀ (repo : String) (table : ObjsTable) (getRaw : String → Option (Nat × List Nat))
      (ts : ThinStream) (ext_refs : List String),
      ((∀ oid ∈ ext_refs, ∃ td, getRaw oid = some td) →
       (∀ oid td, getRaw oid = some td → objId ⟨td.1, td.2⟩ = oid) →
       (∀ oid delta, PackEntry.refDelta oid delta ∈ ts.entries →
         oid ∈ entryOids ts.entries ∨ oid ∈ ext_refs) →
       ∃ buf objs extObjs,
         _complete_thin_pack getRaw ts.entries ext_refs = some buf
         ∧ List.Forall₂ (fun oid (o : GitObj) => getRaw oid = some (o.tnum, o.data))
             ext_refs extObjs
         ∧ buf = write_pack_header (ts.entries.length + ext_refs.length)
             :: (ts.entries.map Tok.ent
                 ++ extObjs.map fun o => Tok.ent (.full o.tnum o.data))
             ++ [Tok.trailerTok (compute_file_sha
                  (write_pack_header (ts.entries.length + ext_refs.length)
                    :: (ts.entries.map Tok.ent
                        ++ extObjs.map fun o => Tok.ent (.full o.tnum o.data))))]
         ∧ decodePack buf = some objs
         ∧ objs.length = ts.entries.length + ext_refs.length
         ∧ add_thin_pack_intended repo table getRaw ts ext_refs
             = some (objs.foldl (fun t o => add_object repo t o) table, objs)
         ∧ ∀ o ∈ objs,
             hasKey (objs.foldl (fun t o2 => add_object repo t o2) table)
               (objId o) repo = true)
      ∧ ((∃ oid ∈ ext_refs, getRaw oid = none) →
        add_thin_pack_intended repo table getRaw ts ext_refs = none) := by
  intro repo table getRaw ts ext_refs
  constructor
  · intro hres hid hcover
    obtain ⟨fetched, hmap, hfa⟩ := optMapM_some
      (fun oid => (getRaw oid).map fun td => Tok.ent (PackEntry.full td.1 td.2))
      ext_refs
      (fun oid hm => by
        obtain ⟨td, htd⟩ := hres oid hm
        exact ⟨Tok.ent (PackEntry.full td.1 td.2), by simp [htd]⟩)
    obtain ⟨extObjs, hfe, hfext⟩ := fetched_structure getRaw hfa
    have hlenext : ext_refs.length = extObjs.length := List.Forall₂.length_eq hfext
    have hcomplete : _complete_thin_pack getRaw ts.entries ext_refs
        = some (write_pack_header (ts.entries.length + ext_refs.length)
            :: (ts.entries.map Tok.ent
                ++ extObjs.map fun o => Tok.ent (.full o.tnum o.data))
            ++ [Tok.trailerTok (compute_file_sha
                 (write_pack_header (ts.entries.length + ext_refs.length)
                   :: (ts.entries.map Tok.ent
                       ++ extObjs.map fun o => Tok.ent (.full o.tnum o.data))))]) := by
      rw [_complete_thin_pack, hmap]
      simp only [bind, Option.bind]
      rw [hfe]
      simp [compute_file_sha, List.foldl_append, List.append_assoc]
    have hshape : (write_pack_header (ts.entries.length + ext_refs.length)
          :: (ts.entries.map Tok.ent
              ++ extObjs.map fun o => Tok.ent (.full o.tnum o.data))
          ++ [Tok.trailerTok (compute_file_sha
               (write_pack_header (ts.entries.length + ext_refs.length)
                 :: (ts.entries.map Tok.ent
                     ++ extObjs.map fun o => Tok.ent (.full o.tnum o.data))))])
        = Tok.hdr 2 (ts.entries.length + ext_refs.length)
            :: ((ts.entries ++ extObjs.map fun o => PackEntry.full o.tnum o.data).map
                  Tok.ent
                ++ [Tok.trailerTok (compute_file_sha
                     (write_pack_header (ts.entries.length + ext_refs.length)
                       :: (ts.entries.map Tok.ent
                           ++ extObjs.map fun o => Tok.ent (.full o.tnum o.data))))]) := by
      simp [write_pack_header, List.map_append, List.map_map, Function.comp,
        List.cons_append, List.append_assoc]
    have hmemAll : ∀ e ∈ ts.entries ++ extObjs.map (fun o => PackEntry.full o.tnum o.data),
        Tok.ent e ∈ Tok.hdr 2 (ts.entries.length + ext_refs.length)
          :: ((ts.entries ++ extObjs.map fun o => PackEntry.full o.tnum o.data).map
                Tok.ent
              ++ [Tok.trailerTok (compute_file_sha
                   (write_pack_header (ts.entries.length + ext_refs.length)
                     :: (ts.entries.map Tok.ent
                         ++ extObjs.map fun o => Tok.ent (.full o.tnum o.data))))]) := by
      intro e he
      exact List.mem_cons_of_mem _ (List.mem_append_left _ (List.mem_map_of_mem _ he))
    have hmemfull : ∀ (o : GitObj),
        Tok.ent (PackEntry.full o.tnum o.data) ∈ Tok.hdr 2
          (ts.entries.length + ext_refs.length)
          :: ((ts.entries ++ extObjs.map fun o => PackEntry.full o.tnum o.data).map
                Tok.ent
              ++ [Tok.trailerTok (compute_file_sha
                   (write_pack_header (ts.entries.length + ext_refs.length)
                     :: (ts.entries.map Tok.ent
                         ++ extObjs.map fun o => Tok.ent (.full o.tnum o.data))))]) →
        o ∈ fullObjs (Tok.hdr 2 (ts.entries.length + ext_refs.length)
          :: ((ts.entries ++ extObjs.map fun o => PackEntry.full o.tnum o.data).map
                Tok.ent
              ++ [Tok.trailerTok (compute_file_sha
                   (write_pack_header (ts.entries.length + ext_refs.length)
                     :: (ts.entries.map Tok.ent
                         ++ extObjs.map fun o => Tok.ent (.full o.tnum o.data))))])) := by
      intro o hm
      rw [fullObjs]
      exact List.mem_filterMap.mpr ⟨Tok.ent (PackEntry.full o.tnum o.data), hm, rfl⟩
    have hlook : ∀ oid (base0 : GitObj),
        base0 ∈ fullObjs (Tok.hdr 2 (ts.entries.length + ext_refs.length)
          :: ((ts.entries ++ extObjs.map fun o => PackEntry.full o.tnum o.data).map
                Tok.ent
              ++ [Tok.trailerTok (compute_file_sha
                   (write_pack_header (ts.entries.length + ext_refs.length)
                     :: (ts.entries.map Tok.ent
                         ++ extObjs.map fun o => Tok.ent (.full o.tnum o.data))))])) →
        objId base0 = oid →
        ∃ base, lookupBase (fullObjs (Tok.hdr 2 (ts.entries.length + ext_refs.length)
          :: ((ts.entries ++ extObjs.map fun o => PackEntry.full o.tnum o.data).map
                Tok.ent
              ++ [Tok.trailerTok (compute_file_sha
                   (write_pack_header (ts.entries.length + ext_refs.length)
                     :: (ts.entries.map Tok.ent
                         ++ extObjs.map fun o => Tok.ent (.full o.tnum o.data))))])))
          oid = some base := by
      intro oid base0 hmem2 hoid
      have hs : (List.find? (fun o2 => objId o2 == oid)
          (fullObjs (Tok.hdr 2 (ts.entries.length + ext_refs.length)
            :: ((ts.entries ++ extObjs.map fun o => PackEntry.full o.tnum o.data).map
                  Tok.ent
                ++ [Tok.trailerTok (compute_file_sha
                     (write_pack_header (ts.entries.length + ext_refs.length)
                       :: (ts.entries.map Tok.ent
                           ++ extObjs.map fun o =>
                                Tok.ent (.full o.tnum o.data))))])))).isSome := by
        rw [List.find?_isSome]
        exact ⟨base0, hmem2, by simp [hoid]⟩
      obtain ⟨base, hb⟩ := Option.isSome_iff_exists.mp hs
      exact ⟨base, hb⟩
    have hdecAll : ∀ e ∈ ts.entries ++ extObjs.map (fun o => PackEntry.full o.tnum o.data),
        ∃ g, decodeEntry (fullObjs (Tok.hdr 2 (ts.entries.length + ext_refs.length)
          :: ((ts.entries ++ extObjs.map fun o => PackEntry.full o.tnum o.data).map
                Tok.ent
              ++ [Tok.trailerTok (compute_file_sha
                   (write_pack_header (ts.entries.length + ext_refs.length)
                     :: (ts.entries.map Tok.ent
                         ++ extObjs.map fun o => Tok.ent (.full o.tnum o.data))))])))
          e = some g := by
      intro e he
      rcases List.mem_append.mp he with h1 | h2
      · cases e with
        | full tnum data => exact ⟨⟨tnum, data⟩, rfl⟩
        | refDelta oid delta =>
          have hbase : ∃ base, lookupBase (fullObjs
              (Tok.hdr 2 (ts.entries.length + ext_refs.length)
                :: ((ts.entries ++ extObjs.map fun o =>
                      PackEntry.full o.tnum o.data).map Tok.ent
                    ++ [Tok.trailerTok (compute_file_sha
                         (write_pack_header (ts.entries.length + ext_refs.length)
                           :: (ts.entries.map Tok.ent
                               ++ extObjs.map fun o =>
                                    Tok.ent (.full o.tnum o.data))))])))
              oid = some base := by
            rcases hcover oid delta h1 with hin | hout
            · rw [entryOids] at hin
              obtain ⟨e2, he2, hmatch⟩ := List.mem_filterMap.mp hin
              cases e2 with
              | full tnum data =>
                have hoid : objId ⟨tnum, data⟩ = oid := by
                  simpa using hmatch
                refine hlook oid ⟨tnum, data⟩ ?_ hoid
                exact hmemfull ⟨tnum, data⟩
                  (hmemAll _ (List.mem_append_left _ he2))
              | refDelta o2 d2 => simp at hmatch
            · obtain ⟨o, ho, hR⟩ := forall2_mem_left hfext oid hout
              have hoid : objId o = oid := hid oid (o.tnum, o.data) hR
              refine hlook oid o ?_ hoid
              refine hmemfull o (hmemAll _ ?_)
              exact List.mem_append_right _ (List.mem_map_of_mem _ ho)
          obtain ⟨base, hb⟩ := hbase
          refine ⟨⟨base.tnum, applyDelta base.data delta⟩, ?_⟩
          simp only [decodeEntry]
          rw [hb]
          rfl
      · obtain ⟨o, ho, he2⟩ := List.mem_map.mp h2
        rw [← he2]
        exact ⟨o, rfl⟩
    have hlenall : (ts.entries ++ extObjs.map fun o =>
        PackEntry.full o.tnum o.data).length
        = ts.entries.length + ext_refs.length := by
      simp [hlenext]
    obtain ⟨objs, hdecodeC, hfa2⟩ := decodePack_eval
      (ts.entries ++ extObjs.map fun o => PackEntry.full o.tnum o.data)
      (ts.entries.length + ext_refs.length)
      (compute_file_sha (write_pack_header (ts.entries.length + ext_refs.length)
        :: (ts.entries.map Tok.ent
            ++ extObjs.map fun o => Tok.ent (.full o.tnum o.data))))
      hlenall hdecAll
    have hlenobjs : objs.length = ts.entries.length + ext_refs.length := by
      have hl := List.Forall₂.length_eq hfa2
      rw [← hl]
      exact hlenall
    have hdecode : decodePack (write_pack_header
        (ts.entries.length + ext_refs.length)
        :: (ts.entries.map Tok.ent
            ++ extObjs.map fun o => Tok.ent (.full o.tnum o.data))
        ++ [Tok.trailerTok (compute_file_sha
             (write_pack_header (ts.entries.length + ext_refs.length)
               :: (ts.entries.map Tok.ent
                   ++ extObjs.map fun o => Tok.ent (.full o.tnum o.data))))])
        = some objs := by
      rw [hshape]
      exact hdecodeC
    refine ⟨_, objs, extObjs, hcomplete, hfext, rfl, hdecode, hlenobjs, ?_, ?_⟩
    · rw [add_thin_pack_intended, hcomplete]
      simp only [bind, Option.bind]
      rw [hdecode]
    · intro o ho
      exact hasKey_foldl_add repo objs table o ho
  · rintro ⟨oid, hmem, hnone⟩
    have hmapnone : optMapM
        (fun oid => (getRaw oid).map fun td => Tok.ent (PackEntry.full td.1 td.2))
        ext_refs = none :=
      optMapM_none _ _ ⟨oid, hmem, by rw [hnone]; rfl⟩
    simp [add_thin_pack_intended, _complete_thin_pack, hmapnone]

/-- Witness for C1: a two-entry thin stream (one full object, one ref delta
whose base lives only in the object store) with one external reference
completes and decodes to 2 + 1 = 3 objects. -/
theorem c1_add_thin_pack_completion_witness :
    ∃ buf objs extObjs,
      _complete_thin_pack
        (fun oid => if oid = objId ⟨2, [7]⟩ then some (2, [7]) else none)
        [.full 1 [5], .refDelta (objId ⟨2, [7]⟩) [9]] [objId ⟨2, [7]⟩] = some buf
      ∧ List.Forall₂ (fun oid (o : GitObj) =>
          (if oid = objId ⟨2, [7]⟩ then some (2, [7]) else none) = some (o.tnum, o.data))
          [objId ⟨2, [7]⟩] extObjs
      ∧ decodePack buf = some objs
      ∧ objs.length = 3 := by
  obtain ⟨buf, objs, extObjs, h1, h2, h3, h4, h5, h6, h7⟩ :=
    (c1_add_thin_pack_completion "r" []
      (fun oid => if oid = objId ⟨2, [7]⟩ then some (2, [7]) else none)
      ⟨[.full 1 [5], .refDelta (objId ⟨2, [7]⟩) [9]], 0⟩
      [objId ⟨2, [7]⟩]).1
      (by
        intro oid hm
        simp only [List.mem_singleton] at hm
        subst hm
        exact ⟨(2, [7]), by simp⟩)
      (by
        intro oid td h
        split at h
        · rename_i hc
          injection h with h2
          rw [← h2]
          exact hc.symm
        · exact absurd h (by simp))
      (by
        intro oid delta hm
        simp only [List.mem_cons, List.mem_singleton, List.not_mem_nil, or_false] at hm
        rcases hm with hm1 | hm2
        · exact absurd hm1 (by simp)
        · injection hm2 with ha hb
          subst ha
          right
          simp)
  exact ⟨buf, objs, extObjs, h1, h2, h4, h5⟩
